import Mathlib

/-!
Verification of the entity-extraction and classification core of the
hebrew-manuscript-extractor repository, as a shallow embedding in Lean 4.

Modelling conventions:
* Python strings are modelled as `List Char` (`Str`); Python `len`, slicing,
  `strip`, `find`, `in` are given executable models below.
* Python `float` arithmetic is modelled with exact rationals `ℚ`; the
  constants involved (0.7, 0.15, ...) are treated as their decimal values.
* Calls into Python's `re` engine on the fixed, hand-curated pattern tables
  are abstracted into a `SearchOracle` parameter (pattern source text ×
  subject → answer); every regex built from `re.escape`d data is a literal
  search and is modelled concretely (substring / word-boundary search).
* Functions that can raise are modelled with `Option`.
-/

namespace HebrewMS

/-- Python strings as lists of unicode code points. -/
abbrev Str := List Char

/-- Python's default whitespace test (`str.strip`, `\s`) restricted to the
ASCII whitespace characters that can occur in the modelled data. -/
def pyIsSpace (c : Char) : Bool :=
  c = ' ' || c = '\t' || c = '\n' || c = '\r' || c = '\x0b' || c = '\x0c'

/-- Python `str.strip()`. -/
def pyStrip (s : Str) : Str :=
  ((s.dropWhile pyIsSpace).reverse.dropWhile pyIsSpace).reverse

/-- Hebrew letter block א..ת (U+05D0 .. U+05EA). -/
def isHebrewLetter (c : Char) : Bool :=
  'א' ≤ c && c ≤ 'ת'

/-- Python `re` word character `\w` over the alphabets occurring in this
corpus: ASCII alphanumerics, underscore and Hebrew letters. -/
def isWordChar (c : Char) : Bool :=
  c.isAlphanum || c = '_' || isHebrewLetter c

/-- `str.lower` (ASCII case folding; Hebrew has no case). -/
def pyLower (s : Str) : Str := s.map Char.toLower

/-- Python slice `s[a:b]` for the clamped non-negative indices produced at
the call sites (`max`/`min` against 0 and `len`). -/
def pySlice (s : Str) (a b : Int) : Str :=
  (s.take b.toNat).drop a.toNat

/-- Leftmost starting index of `pat` as a contiguous substring of `hay`. -/
def findSubAux (pat : Str) : Str → Nat → Option Nat
  | [], i => if pat = [] then some i else none
  | c :: rest, i =>
    if pat.isPrefixOf (c :: rest) then some i else findSubAux pat rest (i + 1)

/-- Python `hay.find(pat)`-style search returning an index. -/
def findSub (hay pat : Str) : Option Nat := findSubAux pat hay 0

/-- Python `str.find`: index of the leftmost occurrence or `-1`. -/
def pyFind (hay pat : Str) : Int :=
  match findSub hay pat with
  | some i => (i : Int)
  | none => -1

/-- Python `pat in hay` (substring containment). -/
def containsSub (hay pat : Str) : Bool := (findSub hay pat).isSome

/-- Case-insensitive leftmost literal search (a `re.search` with
`re.IGNORECASE` on an escaped pattern). -/
def findSubCI (hay pat : Str) : Option Nat := findSub (pyLower hay) (pyLower pat)

/-- Is `c` the word-character status of position `j` of `hay` (out of range
counts as non-word, as at the ends of the subject in `re`)? -/
def wordAtN (hay : Str) (j : Nat) : Bool :=
  match hay.get? j with
  | some c => isWordChar c
  | none => false

/-- `\b` of Python `re` at position `i` of `hay`: exactly one of the two
neighbouring positions holds a word character. -/
def wbAt (hay : Str) (i : Nat) : Bool :=
  (if i = 0 then false else wordAtN hay (i - 1)) != wordAtN hay i

/-- Does the literal `pat` occur at index `i` of `hay`? -/
def occursAt (hay pat : Str) (i : Nat) : Bool := pat.isPrefixOf (hay.drop i)

/-- Leftmost match of `\b<pat>\b` (word-bounded literal search). -/
def findWordBounded (hay pat : Str) : Option Nat :=
  (List.range (hay.length + 1)).find?
    (fun i => occursAt hay pat i && wbAt hay i && wbAt hay (i + pat.length))

/-- First index of character `c` in `s`. -/
def firstIdxOfChar : Str → Char → Option Nat
  | [], _ => none
  | d :: rest, c =>
    if d = c then some 0 else (firstIdxOfChar rest c).map (· + 1)

/-- Non-overlapping leftmost occurrence count, greedy scan
(`len(re.findall(lit, hay))` for a literal pattern). -/
def countOccsGo (pat : Str) : Str → Nat
  | [] => 0
  | c :: rest =>
    if pat.isPrefixOf (c :: rest) then
      1 + countOccsGo pat (rest.drop (pat.length - 1))
    else
      countOccsGo pat rest
termination_by s => s.length
decreasing_by
  · simp only [List.length_drop, List.length_cons]
    omega
  · simp only [List.length_cons]
    omega

/-- `len(re.findall(pat, hay))` for a literal `pat` (the empty pattern
matches at every position, as in Python). -/
def countOccs (hay pat : Str) : Nat :=
  if pat = [] then hay.length + 1 else countOccsGo pat hay

/-- Python `str.replace(old, new)` (all non-overlapping occurrences, left to
right) for a non-empty `old`. -/
def pyReplace (old new : Str) : Str → Str
  | [] => []
  | c :: rest =>
    if h : old.isPrefixOf (c :: rest) ∧ old ≠ [] then
      new ++ pyReplace old new ((c :: rest).drop old.length)
    else
      c :: pyReplace old new rest
termination_by s => s.length
decreasing_by
  · simp only [List.length_drop, List.length_cons]
    have : old.length ≠ 0 := by
      intro hl
      exact h.2 (List.length_eq_zero.mp hl)
    omega
  · simp only [List.length_cons]
    omega

/-- `re.sub(r'\s*\([^)]+\)\s*$', '', w)`: remove a trailing parenthetical
qualifier (e.g. a country name) together with the whitespace around it.
The reversed scan finds the leftmost match ending at the end of the
string: the last non-whitespace character must be `)`, and the segment
walked back to the leftmost `(` of the `)`-free zone must be non-empty. -/
def stripParenSuffix (w : Str) : Str :=
  match w.reverse.dropWhile pyIsSpace with
  | ')' :: rest =>
    let seg := rest.takeWhile (fun c => c ≠ ')')
    match firstIdxOfChar seg.reverse '(' with
    | some idx =>
      let p := seg.length - 1 - idx
      if 1 ≤ p then ((rest.drop (p + 1)).dropWhile pyIsSpace).reverse
      else w
    | none => w
  | _ => w

/-- `bool(re.search(r'\s*\([^)]+\)\s*$', w))`: the word carries a trailing
parenthetical qualifier exactly when stripping it changes the word. -/
def hasTrailingParenQualifier (w : Str) : Bool :=
  decide (stripParenSuffix w ≠ w)

/-- `re.search(r'\s*\([א-ת\s,]+\)\s*$', w)`: trailing parenthetical whose
content is only Hebrew letters, whitespace and commas. -/
def hasHebrewParenSuffix (w : Str) : Bool :=
  match w.reverse.dropWhile pyIsSpace with
  | ')' :: rest =>
    let seg := rest.takeWhile (fun c => isHebrewLetter c || pyIsSpace c || c = ',')
    decide (seg ≠ []) &&
      (match rest.drop seg.length with
       | '(' :: _ => true
       | _ => false)
  | _ => false

/-- `re.search(r'\([^)]+\)', w)`: `w` contains a parenthesised group with at
least one character inside. -/
def hasParenPair : Str → Bool
  | [] => false
  | c :: rest =>
    if c = '(' then
      (decide (rest.takeWhile (fun d => d ≠ ')') ≠ []) &&
        decide (rest.drop (rest.takeWhile (fun d => d ≠ ')')).length ≠ [])) ||
      hasParenPair rest
    else hasParenPair rest

/-- Python's builtin `min` on two numbers. -/
def pyMin (a b : ℚ) : ℚ := if a ≤ b then a else b

/-- Python's builtin `max` on two numbers. -/
def pyMax (a b : ℚ) : ℚ := if a ≤ b then b else a

/-- `pyMin` is the lattice `min`. -/
theorem pyMin_eq_min (a b : ℚ) : pyMin a b = min a b := by
  rw [pyMin, min_def]

/-- `pyMax` is the lattice `max`. -/
theorem pyMax_eq_max (a b : ℚ) : pyMax a b = max a b := by
  rw [pyMax, max_def]

/-- Answers of Python's `re` engine on the fixed, hand-curated pattern
tables.  `search ci pat subject` is the truth of `re.search(pat, subject)`
(with `re.IGNORECASE` when `ci`); `finditer` lists the match spans of
`re.finditer`.  Regexes built from `re.escape`d data are modelled
concretely instead and do not go through the oracle. -/
structure SearchOracle where
  search : Bool → Str → Str → Bool
  finditer : Bool → Str → Str → List (Nat × Nat)

/-- The oracle that reports no match for any fixed pattern. -/
def noMatchOracle : SearchOracle :=
  ⟨fun _ _ _ => false, fun _ _ _ => []⟩

namespace KimaLoader

/-- The single-letter Hebrew prepositions/conjunctions stripped by
`KimaGazetteer._strip_prefixes` (`['ב', 'ל', 'מ', 'ה', 'ו', 'כ', 'ש']`). -/
def hebrewPrefixLetters : List Char := ['ב', 'ל', 'מ', 'ה', 'ו', 'כ', 'ש']

/-- `KimaGazetteer._strip_prefixes`.  The source iterates over the prefix
letters testing `text.startswith(prefix)`; since each candidate is a single
letter, only the head character can match, so the loop is the head test. -/
def stripPrefixes : Str → Str
  | [] => []
  | c :: rest =>
    if hebrewPrefixLetters.contains c && decide (2 < (c :: rest).length) then
      -- remaining = text[1:]
      if decide (1 < rest.length) &&
          (match rest.head? with
           | some c2 => hebrewPrefixLetters.contains c2
           | none => false) &&
          decide (2 < rest.length) then
        rest.tail  -- strip both letters of a doubled prefix
      else rest
    else c :: rest

/-- The attribute record stored per canonical place by
`KimaGazetteer._load_master_gazetteer` (a dict with these nine fields,
always non-empty, hence always truthy). -/
structure PlaceData where
  id : Str
  hebrew : Str
  romanized : Str
  viaf : Str
  geonames : Str
  wikidata : Str
  lat : Str
  lon : Str
  description : Str
  mazal_id : Str
deriving DecidableEq, Repr

/-- Python `dict` lookup `d.get(k)` over an association list model. -/
def dictGet? {α β : Type} [DecidableEq α] (d : List (α × β)) (k : α) : Option β :=
  (d.find? (fun p => p.1 = k)).map (·.2)

/-- The three layered lookup tables of `KimaGazetteer`. -/
structure KimaGazetteer where
  places : List (Str × PlaceData)
  variants : List (Str × Str)
  textual_forms : List (Str × Str)
deriving DecidableEq

/-- Step 3 of `KimaGazetteer.lookup`: variant-name match (falls through when
the variant's canonical name is not itself in `places`). -/
def lookupVariantStep (g : KimaGazetteer) (text : Str) : Option PlaceData :=
  match dictGet? g.variants text with
  | some canonical => dictGet? g.places canonical
  | none => none

/-- Steps 1–3 of `KimaGazetteer.lookup`: direct master-gazetteer match, then
Maagarim textual form, then Kima variant. -/
def lookupTables123 (g : KimaGazetteer) (text : Str) : Option PlaceData :=
  match dictGet? g.places text with
  | some d => some d
  | none =>
    match (match dictGet? g.textual_forms text with
           | some canonical => dictGet? g.places canonical
           | none => none) with
    | some d => some d
    | none => lookupVariantStep g text

/-- `_strip_prefixes` either returns its argument or a strictly shorter
string (spec §4.2 invariant; this is what bounds the `lookup` recursion). -/
theorem stripPrefixes_eq_or_shorter (t : Str) :
    stripPrefixes t = t ∨ (stripPrefixes t).length < t.length := by
  match t with
  | [] => exact Or.inl rfl
  | c :: rest =>
    rw [stripPrefixes]
    split
    · split
      · right
        simp only [List.length_cons, List.length_tail]
        omega
      · right
        simp only [List.length_cons]
        omega
    · exact Or.inl rfl

/-- Step 4 of `KimaGazetteer.lookup`: the cascading lookup with the
prefix-stripping recursive fallback.  The recursion is well founded because
a successful strip strictly shortens the string. -/
def lookup (g : KimaGazetteer) (text : Str) : Option PlaceData :=
  match lookupTables123 g text with
  | some d => some d
  | none =>
    let stripped := stripPrefixes text
    if h : stripped ≠ text then
      -- try again with the stripped version (recursive)
      match lookup g stripped with
      | some result => some result
      | none => none
    else
      none
termination_by text.length
decreasing_by
  rcases stripPrefixes_eq_or_shorter text with heq | hlt
  · exact absurd heq h
  · exact hlt

/-- Iterating `_strip_prefixes` is stationary after at most `len x` steps:
each non-trivial application strictly shortens the string. -/
theorem stripPrefixes_iterate_fixed :
    ∀ (n : ℕ) (x : Str), x.length ≤ n →
      stripPrefixes (stripPrefixes^[n] x) = stripPrefixes^[n] x := by
  intro n
  induction n with
  | zero =>
    intro x hx
    have hxe : x = [] := List.length_eq_zero.mp (Nat.le_zero.mp hx)
    subst hxe
    rfl
  | succ n ih =>
    intro x hx
    rcases stripPrefixes_eq_or_shorter x with heq | hlt
    · rw [Function.iterate_fixed heq (n + 1), heq]
    · rw [Function.iterate_succ_apply]
      exact ih (stripPrefixes x) (by omega)

/-- C7: for every input string, `_strip_prefixes` returns either the string
unchanged or a strictly shorter string, and consequently repeatedly
stripping (the recursive fallback of `KimaGazetteer.lookup`) reaches a fixed
point within `len x` steps. -/
theorem strip_prefixes_shrinks_so_lookup_terminates (x : Str) :
    (stripPrefixes x = x ∨ (stripPrefixes x).length < x.length) ∧
      stripPrefixes (stripPrefixes^[x.length] x) = stripPrefixes^[x.length] x :=
  ⟨stripPrefixes_eq_or_shorter x, stripPrefixes_iterate_fixed x.length x le_rfl⟩

/-- C6 (amended): on any input missed by all three direct lookup tables, a
successful first strip commutes with `lookup`:
`lookup (strip x) = lookup x`. -/
theorem lookup_after_strip_agrees_on_table_miss
    (g : KimaGazetteer) (x : Str)
    (hne : stripPrefixes x ≠ x) (hmiss : lookupTables123 g x = none) :
    lookup g (stripPrefixes x) = lookup g x := by
  conv_rhs => rw [lookup]
  rw [hmiss]
  simp only [hne, ne_eq, not_false_eq_true, dite_true]
  cases lookup g (stripPrefixes x) <;> rfl

/-- A concrete place record for the C6 counterexample gazetteer. -/
def d0 : PlaceData :=
  ⟨"70".data, "בבל".data, "Babylon".data, [], [], [], [], [], [], []⟩

/-- A gazetteer whose master table holds the canonical name "בבל", which
itself begins with the strippable letter ב. -/
def g0 : KimaGazetteer := ⟨[("בבל".data, d0)], [], []⟩

/-- C6 counterexample: with a canonical place name that starts with a
prefix letter, the first strip succeeds yet `lookup (strip x) ≠ lookup x` —
`lookup x` hits the master table while `lookup (strip x)` misses. -/
theorem lookup_after_strip_counterexample :
    stripPrefixes ("בבל".data) ≠ "בבל".data ∧
      lookup g0 (stripPrefixes ("בבל".data)) ≠ lookup g0 ("בבל".data) := by
  refine ⟨by decide, ?_⟩
  have h1 : lookup g0 ("בבל".data) = some d0 := by
    rw [lookup]
    rfl
  have h2 : stripPrefixes ("בבל".data) = "בל".data := by decide
  have h3 : lookup g0 ("בל".data) = none := by
    rw [lookup]
    rfl
  rw [h1, h2, h3]
  simp

/-- Witness for the amended C6 theorem: the empty gazetteer misses "בבל" in
all three tables, the first strip succeeds, and the lookups agree. -/
theorem lookup_after_strip_agrees_witness :
    stripPrefixes ("בבל".data) ≠ "בבל".data ∧
      lookupTables123 ⟨[], [], []⟩ ("בבל".data) = none ∧
      lookup ⟨[], [], []⟩ (stripPrefixes ("בבל".data)) =
        lookup ⟨[], [], []⟩ ("בבל".data) :=
  ⟨by decide, by decide,
    lookup_after_strip_agrees_on_table_miss ⟨[], [], []⟩ ("בבל".data)
      (by decide) (by decide)⟩

end KimaLoader

namespace HebrewPatterns

/-- Immutable Hebrew pattern definition (`hebrew_patterns.HebrewPattern`):
a role label with its tuple of regex pattern sources. -/
structure HebrewPattern where
  role : Str
  patterns : List Str
  description : Str
deriving DecidableEq

/-- `SCRIBE_PATTERNS`. -/
def SCRIBE_PATTERNS : HebrewPattern :=
  ⟨"scribe".data,
   ["נשלם\\s+(?:על\\s+)?(?:ידי|יד)".data,
    "נכתב\\s+(?:על\\s+)?(?:ידי|ביד)".data,
    "כתב(?:ו|תי|ה)?".data,
    "העתיק".data,
    "מעתיק".data,
    "הכותב".data,
    "סופר".data,
    "נעתק\\s+(?:על\\s+)?ידי".data],
   "Physical manuscript writer".data⟩

/-- `AUTHOR_PATTERNS`. -/
def AUTHOR_PATTERNS : HebrewPattern :=
  ⟨"author".data,
   ["מחבר".data,
    "חיבר(?:ו)?".data,
    "המחבר".data,
    "מאת".data,
    "חברו".data,
    "יסדו".data,
    "חבר\\s+ה(?:ר|רב)".data],
   "Intellectual work creator".data⟩

/-- `OWNER_PATTERNS`. -/
def OWNER_PATTERNS : HebrewPattern :=
  ⟨"owner".data,
   ["רשות".data,
    "שייך\\s+ל".data,
    "זה\\s+הספר\\s+של".data,
    "בעלים".data,
    "ממון".data,
    "של\\s+כמ[\"\x27]".data,
    "שלי".data],
   "Current possessor".data⟩

/-- `PREVIOUS_OWNER_PATTERNS`. -/
def PREVIOUS_OWNER_PATTERNS : HebrewPattern :=
  ⟨"previous owner".data,
   ["היה\\s+(?:רשות|של)".data,
    "מסר\\s+מ".data,
    "העביר".data,
    "היה\\s+בעלים".data],
   "Former possessor".data⟩

/-- `PURCHASER_PATTERNS`. -/
def PURCHASER_PATTERNS : HebrewPattern :=
  ⟨"purchaser".data,
   ["קנה".data,
    "קניתי".data,
    "רכש".data,
    "קנאו".data,
    "נקנה\\s+(?:על\\s+)?יד(?:י)?".data],
   "Bought manuscript".data⟩

/-- `SELLER_PATTERNS`. -/
def SELLER_PATTERNS : HebrewPattern :=
  ⟨"seller".data,
   ["מכר".data,
    "נמכר\\s+מיד".data,
    "מכרו".data],
   "Sold manuscript".data⟩

/-- `DONOR_PATTERNS`. -/
def DONOR_PATTERNS : HebrewPattern :=
  ⟨"donor".data,
   ["הקדיש".data,
    "תרם".data,
    "נתן\\s+במתנה".data,
    "הקדשתי".data,
    "נתן\\s+ל".data],
   "Donated manuscript".data⟩

/-- `TRANSLATOR_PATTERNS`. -/
def TRANSLATOR_PATTERNS : HebrewPattern :=
  ⟨"translator".data,
   ["תרגם".data,
    "מתרגם".data,
    "תרגום".data,
    "התרגום".data],
   "Translated work".data⟩

/-- `COMMENTATOR_PATTERNS`. -/
def COMMENTATOR_PATTERNS : HebrewPattern :=
  ⟨"commentator".data,
   ["פירש".data,
    "מפרש".data,
    "פרשן".data,
    "ביאר".data,
    "מבאר".data],
   "Wrote commentary".data⟩

/-- `ILLUMINATOR_PATTERNS`. -/
def ILLUMINATOR_PATTERNS : HebrewPattern :=
  ⟨"illuminator".data,
   ["צייר".data,
    "מאייר".data,
    "ציר".data,
    "עטר".data],
   "Decorated manuscript".data⟩

/-- `CATALOGER_PATTERNS`. -/
def CATALOGER_PATTERNS : HebrewPattern :=
  ⟨"cataloger".data,
   ["קטלג".data,
    "מקטלג".data,
    "רשם".data],
   "Catalogued manuscript".data⟩

/-- `CENSOR_PATTERNS`. -/
def CENSOR_PATTERNS : HebrewPattern :=
  ⟨"censor".data,
   ["צנזור".data,
    "בוחן".data,
    "בדק".data],
   "Censored text".data⟩

/-- `COLOPHON_SCRIBE_PATTERNS`. -/
def COLOPHON_SCRIBE_PATTERNS : HebrewPattern :=
  ⟨"colophon scribe".data,
   ["(?:נשלם|קולופון).*?(?:נכתב|כתב)".data],
   "Scribe mentioned in colophon".data⟩

/-- `ALL_PERSON_PATTERNS`, in precedence order (most specific first). -/
def ALL_PERSON_PATTERNS : List HebrewPattern :=
  [COLOPHON_SCRIBE_PATTERNS,
   SCRIBE_PATTERNS,
   AUTHOR_PATTERNS,
   TRANSLATOR_PATTERNS,
   COMMENTATOR_PATTERNS,
   ILLUMINATOR_PATTERNS,
   OWNER_PATTERNS,
   PREVIOUS_OWNER_PATTERNS,
   PURCHASER_PATTERNS,
   SELLER_PATTERNS,
   DONOR_PATTERNS,
   CATALOGER_PATTERNS,
   CENSOR_PATTERNS]

/-- `PRODUCTION_PLACE_PATTERNS`. -/
def PRODUCTION_PLACE_PATTERNS : HebrewPattern :=
  ⟨"production place".data,
   ["נכתב\\s+ב".data,
    "נכתב\\s+עיר".data,
    "נכתב\\s+פה".data,
    "הועתק\\s+ב".data,
    "הועתק\\s+עיר".data,
    "נעשה\\s+ב".data,
    "נשלם\\s+ב(?:עיר)?".data,
    "נגמר\\s+ב".data,
    "סיימתיו\\s+ב".data,
    "כתוב\\s+ב".data,
    "קולופון.*?נכתב\\s+ב".data,
    "קולופון.*?נשלם\\s+ב".data,
    "קולופון.*?הועתק\\s+ב".data],
   "Manuscript production place (E12_Production)".data⟩

/-- `PUBLICATION_PLACE_PATTERNS`. -/
def PUBLICATION_PLACE_PATTERNS : HebrewPattern :=
  ⟨"published in".data,
   ["נדפס\\s+ב".data,
    "הוצא\\s+לאור\\s+ב".data,
    "דפוס".data,
    "נדפס\\s+עיר".data,
    "הודפס\\s+ב".data],
   "Publication place (F30_Manifestation_Creation)".data⟩

/-- `RESIDENCE_PATTERNS`. -/
def RESIDENCE_PATTERNS : HebrewPattern :=
  ⟨"resided in".data,
   ["גר\\s+ב".data,
    "ישב\\s+ב".data,
    "דר\\s+ב".data,
    "מגורים\\s+ב".data,
    "התגורר\\s+ב".data,
    "מושבו\\s+ב".data,
    "בהיותי\\s+ב".data,
    "בהיותו\\s+ב".data,
    "בהיותם\\s+ב".data,
    "בורח\\s+מ".data,
    "מתגורר\\s+ב".data],
   "Person residence (P74)".data⟩

/-- `PRESERVATION_PATTERNS`. -/
def PRESERVATION_PATTERNS : HebrewPattern :=
  ⟨"preserved in".data,
   ["נמצא\\s+(?:כיום\\s+)?ב".data,
    "שמור\\s+(?:כיום\\s+)?ב".data,
    "ספריית".data,
    "באוסף".data,
    "בספרייה".data,
    "ומספרו\\s+(?:עתה|שם)".data,
    "מספרו\\s+עתה".data],
   "Current preservation location (P55)".data⟩

/-- `PERSON_ORIGIN_PATTERNS`. -/
def PERSON_ORIGIN_PATTERNS : HebrewPattern :=
  ⟨"born in".data,
   ["נולד\\s+ב".data,
    "יליד".data,
    "ילידת".data,
    "מולדתו".data],
   "Person birthplace (E67_Birth)".data⟩

/-- `PERSON_DEATH_PATTERNS`. -/
def PERSON_DEATH_PATTERNS : HebrewPattern :=
  ⟨"died in".data,
   ["נפטר\\s+ב".data,
    "מת\\s+ב".data,
    "נקבר\\s+ב".data,
    "פטירתו\\s+ב".data],
   "Person death place (E69_Death)".data⟩

/-- `PERSON_ACTIVITY_PATTERNS`. -/
def PERSON_ACTIVITY_PATTERNS : HebrewPattern :=
  ⟨"worked in".data,
   ["עבד\\s+ב".data,
    "פעל\\s+ב".data,
    "שימש\\s+ב".data,
    "כיהן\\s+ב".data,
    "היה\\s+רב\\s+ב".data],
   "Person activity location (E7_Activity)".data⟩

/-- `TRANSFER_PATTERNS`. -/
def TRANSFER_PATTERNS : HebrewPattern :=
  ⟨"transferred to".data,
   ["הועבר\\s+ל".data,
    "נמסר\\s+ל".data,
    "הובא\\s+מ".data,
    "נשלח\\s+ל".data,
    "נמכר\\s+ל".data,
    "נרכש\\s+(?:ע(?:\"י|י)|מ)".data,
    "לפנים".data,
    "מאוסף".data],
   "Transfer location (E10_Transfer_of_Custody)".data⟩

/-- `ALL_LOCATION_PATTERNS`, ordered by CIDOC-CRM event precedence. -/
def ALL_LOCATION_PATTERNS : List HebrewPattern :=
  [PRODUCTION_PLACE_PATTERNS,
   PUBLICATION_PLACE_PATTERNS,
   PERSON_ORIGIN_PATTERNS,
   PERSON_DEATH_PATTERNS,
   RESIDENCE_PATTERNS,
   PERSON_ACTIVITY_PATTERNS,
   TRANSFER_PATTERNS,
   PRESERVATION_PATTERNS]

/-- The ordered `for pattern_set: for pattern: if re.search(...)` loop shared
by `classify_person_by_patterns` and `classify_location_by_patterns`
(both call `re.search` with `re.IGNORECASE`). -/
def patternLoop (s : SearchOracle) : List HebrewPattern → Str → Option Str
  | [], _ => none
  | pd :: rest, context =>
    if pd.patterns.any (fun p => s.search true p context) then some pd.role
    else patternLoop s rest context

/-- `extract_person_context`: a ±`context_window` window around the first
(case-insensitive) occurrence of the name, or the first 500 characters when
the name is not found.  `re.escape(person_name)` makes the search literal. -/
def extract_person_context (text person_name : Str)
    (context_window : Nat := 100) : Str :=
  match findSubCI text person_name with
  | none => text.take 500
  | some i =>
    let s : Int := max 0 ((i : Int) - (context_window : Int))
    let e : Int := min (text.length : Int)
      ((i : Int) + (person_name.length : Int) + (context_window : Int))
    pySlice text s e

/-- `classify_person_by_patterns`. -/
def classify_person_by_patterns (s : SearchOracle) (text person_name : Str)
    (patterns : List HebrewPattern := ALL_PERSON_PATTERNS) : Option Str :=
  patternLoop s patterns (extract_person_context text person_name)

/-- `classify_persons_batch`: dict insertion order is the loop order. -/
def classify_persons_batch (s : SearchOracle) (text : Str)
    (person_names : List Str) : List (Str × Option Str) :=
  person_names.map (fun n => (n, classify_person_by_patterns s text n))

/-- The three search variants of `extract_location_context`
(`ב`-prefixed base, bare base, and — when the name carries a qualifier —
the full name), tried in order; all are `re.escape`d, hence literal. -/
def findFirstVariant (text : Str) : List Str → Option (Nat × Nat)
  | [] => none
  | v :: rest =>
    match findSubCI text v with
    | some i => some (i, i + v.length)
    | none => findFirstVariant text rest

/-- `extract_location_context`. -/
def extract_location_context (text location_name : Str)
    (context_window : Nat := 100) : Str :=
  let location_base := pyStrip (stripParenSuffix location_name)
  let search_variants :=
    ['ב' :: location_base, location_base] ++
      (if location_base ≠ location_name then [location_name] else [])
  match findFirstVariant text search_variants with
  | none => []  -- location not found in text: no context available
  | some (ms, me) =>
    let s : Int := max 0 ((ms : Int) - (context_window : Int))
    let e : Int := min (text.length : Int) ((me : Int) + (context_window : Int))
    pySlice text s e

/-- Heuristic 1 regex: colophon/production context. -/
def COLOPHON_HEURISTIC : Str :=
  "קולופון|נשלם\\s+(?:בעיר)?|הועתק|נכתב(?:\\s+בעיר)?".data

/-- Heuristic 1 regex: preservation/ownership context. -/
def PRESERVED_HEURISTIC : Str :=
  "ספריית|באוסף|בעלות|בידי|נמצא\\s+ב|שמור\\s+ב|repository|archive".data

/-- Heuristic 1 regex: provenance context. -/
def PROVENANCE_HEURISTIC : Str :=
  "מאוסף|לפנים|בעבר|מיד|הועבר|נמכר|לקוח".data

/-- Heuristic 1 regex: person/residence context. -/
def RESIDENCE_HEURISTIC : Str :=
  "גר\\s+ב|ישב\\s+ב|דר\\s+ב|מושבו|עיר|חי\\s+ב".data

/-- Heuristic 2 regex: comma/semicolon-separated location list. -/
def COMMA_FORMAT_HEURISTIC : Str :=
  "[,;]\\s*(?:ו)?(?:ג)?[אב-ת]".data

/-- Heuristic 3 regex: subject/topic field markers. -/
def SUBJECT_HEURISTIC : Str :=
  "נושא|subject|subject matter|תחום".data

/-- Heuristic 5 word bucket: writing verbs. -/
def WRITING_WORDS : List Str :=
  ["ספר".data, "כתב".data, "כתיבה".data, "כתיבת".data]

/-- Heuristic 5 word bucket: printing verbs. -/
def PRINTING_WORDS : List Str :=
  ["הדפס".data, "הדפסה".data, "דפוס".data, "print".data]

/-- Heuristic 5 word bucket: copying verbs. -/
def COPYING_WORDS : List Str :=
  ["מעתיק".data, "העתק".data, "העתקה".data, "copy".data]

/-- The ±500-character broader context computed by heuristic 1 of
`classify_location_by_patterns` around `text.find(context)`. -/
def locationBroaderContext (text location_name : Str) : Str :=
  let lp0 : Int := pyFind text (extract_location_context text location_name)
  let location_pos : Int := if lp0 = -1 then 0 else lp0
  let text_before := pySlice text (max 0 (location_pos - 500)) location_pos
  let text_after :=
    pySlice text location_pos (min (text.length : Int) (location_pos + 500))
  text_before ++ text_after

/-- The context-heuristic cascade of `classify_location_by_patterns`
(heuristics 1–6): the sequence of `return`s executed once no explicit
pattern family has matched.  Every branch returns a label, ending in the
terminal default "production place".
`re.findall(location_name, text, re.IGNORECASE)` of heuristic 4 is modelled
as a case-insensitive literal count (location names contain no regex
metacharacters). -/
def locationHeuristicCascade (s : SearchOracle)
    (text location_name context : Str) (location_pos : Int) : Str :=
  let broader_context := locationBroaderContext text location_name
  if s.search true COLOPHON_HEURISTIC broader_context then
    "production place".data
  else if s.search true PRESERVED_HEURISTIC broader_context then
    "preserved in".data
  else if s.search true PROVENANCE_HEURISTIC broader_context then
    "transferred to".data
  else if s.search true RESIDENCE_HEURISTIC broader_context then
    "resided in".data
  else if s.search false COMMA_FORMAT_HEURISTIC context then
    "transferred to".data
  else if s.search true SUBJECT_HEURISTIC broader_context then
    "active in".data
  else if countOccs (pyLower text) (pyLower location_name) = 1 &&
      decide ((location_pos : ℚ) < (text.length : ℚ) * (3 / 10)) then
    "production place".data
  else if WRITING_WORDS.any (fun w => containsSub (pyLower context) w) then
    "production place".data
  else if PRINTING_WORDS.any (fun w => containsSub (pyLower context) w) then
    "printed in".data
  else if COPYING_WORDS.any (fun w => containsSub (pyLower context) w) then
    "production place".data
  else
    "production place".data

/-- `classify_location_by_patterns`: ordered pattern families, then the
context-heuristic cascade. -/
def classify_location_by_patterns (s : SearchOracle)
    (text location_name : Str) : Option Str :=
  let context := extract_location_context text location_name
  -- location not found in text (false positive from Kima): skip it
  if context = [] || pyStrip context = [] then none
  else
    match patternLoop s ALL_LOCATION_PATTERNS context with
    | some role => some role
    | none =>
      let location_pos : Int :=
        let lp0 := pyFind text (extract_location_context text location_name)
        if lp0 = -1 then 0 else lp0
      some (locationHeuristicCascade s text location_name context location_pos)

/-- The closed person-role vocabulary of spec §4.5. -/
def PERSON_ROLE_VOCABULARY : List Str :=
  ["colophon scribe".data, "scribe".data, "author".data, "translator".data,
   "commentator".data, "illuminator".data, "owner".data,
   "previous owner".data, "purchaser".data, "seller".data, "donor".data,
   "cataloger".data, "censor".data]

/-- Any label returned by the ordered pattern loop is the role of one of its
pattern families. -/
theorem patternLoop_role_mem (s : SearchOracle) :
    ∀ (ps : List HebrewPattern) (ctx : Str),
      patternLoop s ps ctx = none ∨
        ∃ pd ∈ ps, patternLoop s ps ctx = some pd.role := by
  intro ps
  induction ps with
  | nil => intro ctx; exact Or.inl rfl
  | cons pd rest ih =>
    intro ctx
    rw [patternLoop]
    split
    · exact Or.inr ⟨pd, by simp, rfl⟩
    · rcases ih ctx with h | ⟨pd', hmem, heq⟩
      · exact Or.inl h
      · exact Or.inr ⟨pd', by simp [hmem], heq⟩

/-- C8: `classify_person_by_patterns` returns "no match" or a label drawn
from the fixed thirteen-role vocabulary — never an empty string, never a
label outside the vocabulary. -/
theorem classify_person_label_in_vocabulary
    (s : SearchOracle) (text person_name : Str) :
    classify_person_by_patterns s text person_name = none ∨
      ∃ lbl ∈ PERSON_ROLE_VOCABULARY,
        classify_person_by_patterns s text person_name = some lbl ∧ lbl ≠ [] := by
  rcases patternLoop_role_mem s ALL_PERSON_PATTERNS
      (extract_person_context text person_name) with h | ⟨pd, hmem, heq⟩
  · exact Or.inl h
  · refine Or.inr ⟨pd.role, ?_, heq, ?_⟩
    · fin_cases hmem <;> decide
    · fin_cases hmem <;> decide

/-- C10: when the person name does not occur in the text at all, context
extraction falls back to the first 500 characters, and classification
proceeds on that opening window (it does not return "no match" on the
ground that the name is absent, unlike the location classifier). -/
theorem classify_person_falls_back_to_opening_window
    (s : SearchOracle) (text person_name : Str)
    (h : findSubCI text person_name = none) :
    extract_person_context text person_name = text.take 500 ∧
      classify_person_by_patterns s text person_name =
        patternLoop s ALL_PERSON_PATTERNS (text.take 500) := by
  have h1 : extract_person_context text person_name = text.take 500 := by
    unfold extract_person_context
    rw [h]
  exact ⟨h1, by rw [classify_person_by_patterns, h1]⟩

/-- A concrete oracle consistent with Python `re` on the inputs of the C10
witness: only the literal pattern "סופר" matches, by substring containment. -/
def scribeWordOracle : SearchOracle :=
  ⟨fun _ p ctx => decide (p = "סופר".data) && containsSub ctx ("סופר".data),
   fun _ _ _ => []⟩

/-- Witness for C10: the person "משה" does not occur in the text "סופר",
yet the scribe marker in the opening window yields role "scribe". -/
theorem classify_person_falls_back_witness :
    findSubCI ("סופר".data) ("משה".data) = none ∧
      classify_person_by_patterns scribeWordOracle ("סופר".data) ("משה".data) =
        patternLoop scribeWordOracle ALL_PERSON_PATTERNS (("סופר".data).take 500) ∧
      patternLoop scribeWordOracle ALL_PERSON_PATTERNS (("סופר".data).take 500) =
        some ("scribe".data) :=
  ⟨by decide,
   (classify_person_falls_back_to_opening_window scribeWordOracle
      ("סופר".data) ("משה".data) (by decide)).2,
   by decide⟩

/-- C1 (amended): the location classifier's context gate.  (i) When context
extraction returns the empty string (location not locatable), the
classifier returns "no match" immediately.  (ii) Whenever the extracted
context is non-empty after stripping whitespace, some label is returned.
(iii) When additionally no location pattern family matches and none of the
heuristics that yield a non-"production place" label fires, the result is
exactly the terminal default "production place". -/
theorem classify_location_context_gate
    (s : SearchOracle) (text location_name : Str) :
    (extract_location_context text location_name = [] →
        classify_location_by_patterns s text location_name = none) ∧
      (pyStrip (extract_location_context text location_name) ≠ [] →
        (classify_location_by_patterns s text location_name).isSome = true) ∧
      (pyStrip (extract_location_context text location_name) ≠ [] →
        patternLoop s ALL_LOCATION_PATTERNS
            (extract_location_context text location_name) = none →
        s.search true PRESERVED_HEURISTIC
            (locationBroaderContext text location_name) = false →
        s.search true PROVENANCE_HEURISTIC
            (locationBroaderContext text location_name) = false →
        s.search true RESIDENCE_HEURISTIC
            (locationBroaderContext text location_name) = false →
        s.search false COMMA_FORMAT_HEURISTIC
            (extract_location_context text location_name) = false →
        s.search true SUBJECT_HEURISTIC
            (locationBroaderContext text location_name) = false →
        PRINTING_WORDS.any (fun w =>
            containsSub (pyLower (extract_location_context text location_name)) w)
          = false →
        classify_location_by_patterns s text location_name =
          some ("production place".data)) := by
  refine ⟨?_, ?_, ?_⟩
  · intro hctx
    simp only [classify_location_by_patterns]
    rw [hctx]
    simp
  · intro hstrip
    have hctx : extract_location_context text location_name ≠ [] := by
      intro h
      exact hstrip (by rw [h]; rfl)
    simp only [classify_location_by_patterns]
    rw [if_neg (by simp [hctx, hstrip])]
    cases hm : patternLoop s ALL_LOCATION_PATTERNS
        (extract_location_context text location_name) <;> rfl
  · intro hstrip hpat hpres hprov hres hcomma hsubj hprint
    have hctx : extract_location_context text location_name ≠ [] := by
      intro h
      exact hstrip (by rw [h]; rfl)
    simp only [classify_location_by_patterns]
    rw [if_neg (by simp [hctx, hstrip]), hpat]
    have hcascade : ∀ pos : Int,
        locationHeuristicCascade s text location_name
          (extract_location_context text location_name) pos =
          "production place".data := by
      intro pos
      simp only [locationHeuristicCascade]
      simp only [hpres, hprov, hres, hcomma, hsubj, hprint]
      split_ifs <;> first
        | rfl
        | exact False.elim (by assumption)
    rw [hcascade]

/-- C1 counterexample: with a whitespace location name in a whitespace
text, context extraction returns a non-empty string, yet the classifier
returns "no match" — the code's gate is on the whitespace-stripped context,
not on non-emptiness. -/
theorem classify_location_context_counterexample :
    extract_location_context ("  ".data) (" ".data) ≠ [] ∧
      pyStrip (extract_location_context ("  ".data) (" ".data)) = [] ∧
      classify_location_by_patterns noMatchOracle ("  ".data) (" ".data) =
        none :=
  ⟨by decide, by decide, by decide⟩

/-- Witness for the amended C1 theorem at a text whose location occurs
twice with no markers: every hypothesis is discharged concretely and the
classifier lands on the terminal default "production place". -/
theorem classify_location_context_gate_witness :
    pyStrip (extract_location_context ("שלום שלום".data) ("שלום".data)) ≠ [] ∧
      classify_location_by_patterns noMatchOracle ("שלום שלום".data)
          ("שלום".data) = some ("production place".data) :=
  ⟨by decide,
   ((classify_location_context_gate noMatchOracle ("שלום שלום".data)
        ("שלום".data)).2.2 (by decide) (by decide) (by decide) (by decide)
      (by decide) (by decide) (by decide) (by decide))⟩

end HebrewPatterns

namespace LocationValidator

/-- Hebrew months (absolute blacklist of `location_validator`). -/
def HEBREW_MONTHS : List Str :=
  ["ניסן".data, "אייר".data, "סיון".data, "תמוז".data, "אב".data,
   "אלול".data, "תשרי".data, "חשון".data, "כסלו".data, "טבת".data,
   "שבט".data, "אדר".data, "אדר א".data, "אדר ב".data, "ירח".data]

/-- Common Hebrew words that happen to match place names
(`COMMON_HEBREW_WORDS`; the duplicated entries of the source literal are
harmless under membership). -/
def COMMON_HEBREW_WORDS : List Str :=
  ["אני".data, "או".data, "אן".data, "אם".data, "בר".data, "מר".data,
   "נר".data,
   "פרט".data, "סעד".data, "שנה".data, "יום".data, "ירח".data,
   "רב".data, "מור".data, "מר".data, "רבי".data, "חכם".data,
   "צמח".data, "נחם".data, "אמר".data, "עזר".data, "אשר".data,
   "נעם".data,
   "עומר".data, "שחר".data, "קדם".data, "קדמה".data, "עילם".data,
   "אור".data, "עידן".data, "סעדיה".data, "עזריה".data, "מנחם".data,
   "ספר".data, "ספאר".data, "עיר".data, "קהל".data, "בית".data,
   "מים".data, "אש".data, "רוח".data, "עפר".data,
   "נושא".data,
   "בכתבי".data,
   "כתב".data, "כתבו".data, "כתבי".data,
   "מנחת".data,
   "מן".data, "על".data, "אל".data, "את".data, "עם".data, "של".data,
   "ב".data, "ל".data, "מ".data, "כ".data, "ה".data, "ו".data, "ש".data,
   "ירח".data, "שמש".data, "צדק".data, "נוגה".data, "שבתאי".data,
   "א".data, "ב".data, "ג".data, "ד".data, "ה".data, "ו".data, "ז".data,
   "ח".data, "ט".data, "י".data,
   "אב".data, "אג".data, "אד".data, "אה".data, "אז".data, "או".data,
   "אי".data, "בא".data,
   "בה".data, "בו".data, "גב".data, "דב".data, "הב".data, "וב".data,
   "זב".data]

/-- `NON_LOCATION_CONTEXTS`: regex sources indicating date/person context. -/
def NON_LOCATION_CONTEXTS : List Str :=
  ["לפרט\\s+\\w+".data,
   "לשטרות\\s+\\w+".data,
   "בשנת\\s+\\w+".data,
   "שנת\\s+\\w+".data,
   "מר\"ח".data,
   "ר\"ח".data,
   "חדש\\s+\\w+".data,
   "בחדש\\s+\\w+".data,
   "בן\\s+\\w+".data,
   "בר\\s+\\w+".data,
   "בת\\s+\\w+".data,
   "רבי\\s+\\w+".data,
   "הרב\\s+\\w+".data,
   "ר\x27\\s*\\w+".data,
   "מאת\\s+\\w+".data,
   "אמר\\s+\\w+".data]

/-- `LOCATION_CONTEXT_INDICATORS`: regex sources of location context. -/
def LOCATION_CONTEXT_INDICATORS : List Str :=
  ["נכתב\\s+ב".data,
   "נשלם\\s+ב".data,
   "הועתק\\s+ב".data,
   "נדפס\\s+ב".data,
   "בהיותי\\s+ב".data,
   "בהיותו\\s+ב".data,
   "גר\\s+ב".data,
   "ישב\\s+ב".data,
   "בורח\\s+מ".data,
   "יצא\\s+מ".data,
   "בא\\s+מ".data,
   "עלה\\s+מ".data,
   "נסע\\s+מ".data,
   "מ\\w+\\s+\\([\\w\\s]+\\)".data,
   "ספריית\\s+".data,
   "באוסף\\s+".data,
   "במוזיאון\\s+".data,
   "בעיר\\s+".data,
   "בארץ\\s+".data,
   "במדינת\\s+".data,
   "לפנים\\s+".data]

/-- The person-name indicator regexes of `is_in_person_name_context`. -/
def PERSON_INDICATORS : List Str :=
  ["בן\\s+\\w+".data, "בר\\s+\\w+".data, "בת\\s+\\w+".data,
   "רבי\\s+\\w+".data, "הרב\\s+\\w+".data, "ר\x27\\s*\\w+".data,
   "מאת\\s+\\w+".data, "אמר\\s+\\w+".data, "כתב\\s+\\w+".data,
   "\\w+\\s+בן\\s+".data, "\\w+\\s+בר\\s+".data]

/-- The recognised-first-name + patronymic regex of
`get_location_confidence`. -/
def PERSON_NAME_PATTERN : Str :=
  ("(?:יוסף|משה|דוד|יעקב|שמואל|עזרא|שלמה|יהודה|אברהם|אלעזר|יצחק|לוי|בנימין)" ++
   "\\s+(?:בן|בר|בת)\\s+\\w+").data

/-- `re.sub(r'[֑-ׇ]', '', w)`: remove nikud (vowel points). -/
def removeNikud (s : Str) : Str :=
  s.filter (fun c => !(0x0591 ≤ c.toNat && c.toNat ≤ 0x05C7))

/-- `is_blacklisted`: month, common-word or too-short veto after stripping
whitespace and nikud. -/
def is_blacklisted (word : Str) : Bool :=
  let word_clean := pyStrip word
  let word_no_nikud := removeNikud word_clean
  HEBREW_MONTHS.contains word_no_nikud ||
    COMMON_HEBREW_WORDS.contains word_no_nikud ||
    decide (word_no_nikud.length ≤ 2)

/-- `is_in_date_context` (window defaults to 50; `re.search` without
flags). -/
def is_in_date_context (s : SearchOracle) (text : Str) (position : Int)
    (window : Nat := 50) : Bool :=
  let context := pySlice text (max 0 (position - (window : Int)))
    (min (text.length : Int) (position + (window : Int)))
  NON_LOCATION_CONTEXTS.any (fun p => s.search false p context)

/-- `is_in_person_name_context` (window defaults to 30). -/
def is_in_person_name_context (s : SearchOracle) (text : Str)
    (position : Int) (window : Nat := 30) : Bool :=
  let context := pySlice text (max 0 (position - (window : Int)))
    (min (text.length : Int) (position + (window : Int)))
  PERSON_INDICATORS.any (fun p => s.search false p context)

/-- `has_location_context_indicator`: find the word (`ב`-prefixed literal
first, then word-bounded literal), then look for indicator patterns in a
±`window` context; a Hebrew parenthetical country suffix on the word also
counts — but only when the word was found at all. -/
def has_location_context_indicator (s : SearchOracle) (text word : Str)
    (window : Nat := 100) : Bool :=
  let word_base := pyStrip (stripParenSuffix word)
  let position? : Option Nat :=
    match findSub text ('ב' :: word_base) with
    | some i => some i
    | none => findWordBounded text word_base
  match position? with
  | none => false  -- word not found
  | some position =>
    let context := pySlice text (max 0 ((position : Int) - (window : Int)))
      (min (text.length : Int) ((position : Int) + (window : Int)))
    LOCATION_CONTEXT_INDICATORS.any (fun p => s.search false p context) ||
      hasHebrewParenSuffix word

/-- `validate_location_extraction`: the ordered hard vetoes of §4.3. -/
def validate_location_extraction (s : SearchOracle) (word text : Str)
    (min_length : Nat := 3) (require_context : Bool := true) : Bool :=
  let word_clean := pyStrip word
  let word_base := pyStrip (stripParenSuffix word_clean)
  -- Rule 1: blacklist (absolute veto)
  if is_blacklisted word_base then false
  -- Rule 2: minimum length
  else if decide (word_base.length < min_length) then false
  else
    -- Rule 3: find word position in text (word-bounded, then ב-prefixed)
    let position? : Option Nat :=
      match findWordBounded text word_base with
      | some i => some i
      | none => findSub text ('ב' :: word_base)
    match position? with
    | none =>
      -- not in text: accept only with a parenthetical qualifier
      hasTrailingParenQualifier word_clean
    | some position =>
      -- Rule 4: disqualifying contexts
      if is_in_date_context s text (position : Int) then false
      else if is_in_person_name_context s text (position : Int) then false
      -- Rule 5: location context indicators
      else if require_context then
        has_location_context_indicator s text word
      else true

/-- `word.split()[0] if ' ' in word else word`, with Python's `IndexError`
on an all-whitespace word containing a space modelled as `none`. -/
def confWordBase? (word : Str) : Option Str :=
  if containsSub word [' '] then
    let tkn := (word.dropWhile pyIsSpace).takeWhile (fun c => !pyIsSpace c)
    if tkn = [] then none else some tkn
  else some word

/-- The recognised-person-name co-occurrence penalty of
`get_location_confidence`: some match of the patronymic pattern has the
word base (case-insensitively) inside its ±30-character window. -/
def personNamePenaltyHit (s : SearchOracle) (text word_base : Str) : Bool :=
  s.search true PERSON_NAME_PATTERN text &&
    (s.finditer true PERSON_NAME_PATTERN text).any (fun m =>
      containsSub
        (pyLower (pySlice text (max 0 ((m.1 : Int) - 30)) ((m.2 : Int) + 30)))
        (pyLower word_base))

/-- `get_location_confidence` over exact rationals. -/
def get_location_confidence (s : SearchOracle) (word text : Str) :
    Option ℚ :=
  match confWordBase? word with
  | none => none
  | some word_base =>
    -- CRITICAL: blacklist check
    if is_blacklisted word_base then some 0
    else
      let confidence : ℚ := 7 / 10
      let confidence :=
        if containsSub word [' '] then confidence + 15 / 100 else confidence
      let confidence :=
        if hasParenPair word then confidence + 20 / 100 else confidence
      let confidence :=
        if personNamePenaltyHit s text word_base then confidence * (2 / 10)
        else confidence
      let confidence :=
        if is_in_date_context s text (pyFind text word_base) then
          confidence * (1 / 10)
        else confidence
      let confidence :=
        if is_in_person_name_context s text (pyFind text word_base) then
          confidence * (15 / 100)
        else confidence
      let confidence :=
        if has_location_context_indicator s text word then
          pyMin (confidence * (13 / 10)) 1
        else confidence
      some (pyMax 0 (pyMin confidence 1))

/-- The confidence score exactly as spec §4.3 words it: start at 0.7,
boost +0.15 for multi-word and +0.20 for a parenthetical qualifier,
multiply by 0.2 / 0.1 / 0.15 for the person-name, date-context and
person-context penalties, boost ×1.3 capped at 1.0 for a location-context
indicator, with blacklist membership forcing exactly 0. -/
def spec_confidence_formula
    (blacklisted multiword parenQual personPn dateCtx personCtx locInd :
      Bool) : ℚ :=
  if blacklisted then 0
  else
    let base : ℚ := 7 / 10 + (if multiword then 15 / 100 else 0) +
      (if parenQual then 20 / 100 else 0)
    let penalized := base * (if personPn then 2 / 10 else 1) *
      (if dateCtx then 1 / 10 else 1) * (if personCtx then 15 / 100 else 1)
    let boosted :=
      if locInd then pyMin (penalized * (13 / 10)) 1 else penalized
    pyMax 0 (pyMin boosted 1)

/-- The spec formula always lies in [0, 1]. -/
theorem spec_confidence_formula_bounds
    (b1 b2 b3 b4 b5 b6 b7 : Bool) :
    0 ≤ spec_confidence_formula b1 b2 b3 b4 b5 b6 b7 ∧
      spec_confidence_formula b1 b2 b3 b4 b5 b6 b7 ≤ 1 := by
  cases b1
  · simp only [spec_confidence_formula, Bool.false_eq_true, if_false,
      pyMin_eq_min, pyMax_eq_max]
    exact ⟨le_max_left 0 _, max_le zero_le_one (min_le_right _ 1)⟩
  · simp only [spec_confidence_formula, if_true]
    exact ⟨le_refl 0, zero_le_one⟩

/-- The mutating update chain of `get_location_confidence`, with its seven
boolean tests abstracted (proof-only restatement of the source body). -/
def code_confidence_chain
    (blacklisted multiword parenQual personPn dateCtx personCtx locInd :
      Bool) : Option ℚ :=
  if blacklisted then some 0
  else
    let confidence : ℚ := 7 / 10
    let confidence := if multiword then confidence + 15 / 100 else confidence
    let confidence := if parenQual then confidence + 20 / 100 else confidence
    let confidence := if personPn then confidence * (2 / 10) else confidence
    let confidence := if dateCtx then confidence * (1 / 10) else confidence
    let confidence := if personCtx then confidence * (15 / 100) else confidence
    let confidence :=
      if locInd then pyMin (confidence * (13 / 10)) 1 else confidence
    some (pyMax 0 (pyMin confidence 1))

/-- `if b then x + d else x = x + if b then d else 0`. -/
theorem ite_add_right (b : Bool) (x d : ℚ) :
    (if b = true then x + d else x) = x + (if b = true then d else 0) := by
  cases b <;> simp

/-- `if b then x * d else x = x * if b then d else 1`. -/
theorem ite_mul_right (b : Bool) (x d : ℚ) :
    (if b = true then x * d else x) = x * (if b = true then d else 1) := by
  cases b <;> simp

/-- `get_location_confidence` is the update chain on the code's seven
boolean tests, whenever the base-token extraction succeeds. -/
theorem get_location_confidence_eq_chain
    (s : SearchOracle) (word text wb : Str)
    (h : confWordBase? word = some wb) :
    get_location_confidence s word text =
      code_confidence_chain (is_blacklisted wb) (containsSub word [' '])
        (hasParenPair word) (personNamePenaltyHit s text wb)
        (is_in_date_context s text (pyFind text wb))
        (is_in_person_name_context s text (pyFind text wb))
        (has_location_context_indicator s text word) := by
  unfold get_location_confidence code_confidence_chain
  rw [h]

/-- The incremental update chain computes the compositional spec formula. -/
theorem code_chain_eq_spec_formula
    (b1 b2 b3 b4 b5 b6 b7 : Bool) :
    code_confidence_chain b1 b2 b3 b4 b5 b6 b7 =
      some (spec_confidence_formula b1 b2 b3 b4 b5 b6 b7) := by
  cases b1
  · simp only [code_confidence_chain, spec_confidence_formula,
      Bool.false_eq_true, if_false]
    rw [ite_add_right, ite_add_right, ite_mul_right, ite_mul_right,
      ite_mul_right]
  · simp [code_confidence_chain, spec_confidence_formula]

/-- C5: `get_location_confidence` computes exactly the multiplicative
formula of spec §4.3 (on any word whose base-token extraction does not
raise), and the result always lies in [0, 1]. -/
theorem get_location_confidence_is_spec_formula
    (s : SearchOracle) (word text wb : Str)
    (h : confWordBase? word = some wb) :
    get_location_confidence s word text =
      some (spec_confidence_formula (is_blacklisted wb)
        (containsSub word [' ']) (hasParenPair word)
        (personNamePenaltyHit s text wb)
        (is_in_date_context s text (pyFind text wb))
        (is_in_person_name_context s text (pyFind text wb))
        (has_location_context_indicator s text word)) ∧
      0 ≤ spec_confidence_formula (is_blacklisted wb)
        (containsSub word [' ']) (hasParenPair word)
        (personNamePenaltyHit s text wb)
        (is_in_date_context s text (pyFind text wb))
        (is_in_person_name_context s text (pyFind text wb))
        (has_location_context_indicator s text word) ∧
      spec_confidence_formula (is_blacklisted wb)
        (containsSub word [' ']) (hasParenPair word)
        (personNamePenaltyHit s text wb)
        (is_in_date_context s text (pyFind text wb))
        (is_in_person_name_context s text (pyFind text wb))
        (has_location_context_indicator s text word) ≤ 1 := by
  refine ⟨?_, (spec_confidence_formula_bounds _ _ _ _ _ _ _).1,
    (spec_confidence_formula_bounds _ _ _ _ _ _ _).2⟩
  rw [get_location_confidence_eq_chain s word text wb h,
    code_chain_eq_spec_formula]

/-- Witness for C5 at a concrete single-word input. -/
theorem get_location_confidence_formula_witness :
    confWordBase? ("דמשק".data) = some ("דמשק".data) ∧
      get_location_confidence noMatchOracle ("דמשק".data) [] =
        some (spec_confidence_formula
          (is_blacklisted ("דמשק".data)) (containsSub ("דמשק".data) [' '])
          (hasParenPair ("דמשק".data))
          (personNamePenaltyHit noMatchOracle [] ("דמשק".data))
          (is_in_date_context noMatchOracle [] (pyFind [] ("דמשק".data)))
          (is_in_person_name_context noMatchOracle []
            (pyFind [] ("דמשק".data)))
          (has_location_context_indicator noMatchOracle []
            ("דמשק".data))) :=
  ⟨by decide,
   (get_location_confidence_is_spec_formula noMatchOracle ("דמשק".data) []
      ("דמשק".data) (by decide)).1⟩

/-- `takeWhile` keeps a list all of whose elements satisfy the test. -/
theorem takeWhile_all_true {p : Char → Bool} :
    ∀ {l : Str}, (∀ c ∈ l, p c = true) → l.takeWhile p = l := by
  intro l
  induction l with
  | nil => intro _; rfl
  | cons c rest ih =>
    intro h
    rw [List.takeWhile_cons, h c (by simp)]
    simp [ih (fun d hd => h d (by simp [hd]))]

/-- `dropWhile` keeps a list none of whose elements satisfy the test. -/
theorem dropWhile_all_false {p : Char → Bool} :
    ∀ {l : Str}, (∀ c ∈ l, p c = false) → l.dropWhile p = l := by
  intro l
  cases l with
  | nil => intro _; rfl
  | cons c rest =>
    intro h
    rw [List.dropWhile_cons, h c (by simp)]
    simp

/-- `pyStrip` is the identity on whitespace-free strings. -/
theorem pyStrip_all_nonspace {l : Str}
    (h : ∀ c ∈ l, pyIsSpace c = false) : pyStrip l = l := by
  unfold pyStrip
  rw [dropWhile_all_false h,
    dropWhile_all_false (fun c hc => h c (List.mem_reverse.mp hc)),
    List.reverse_reverse]

/-- `takeWhile` over an all-true block stops exactly at the first failing
element. -/
theorem takeWhile_append_stop {p : Char → Bool} :
    ∀ (t : Str) (d : Char) (r : Str), (∀ c ∈ t, p c = true) →
      p d = false → (t ++ d :: r).takeWhile p = t := by
  intro t
  induction t with
  | nil =>
    intro d r _ hd
    simp [List.takeWhile_cons, hd]
  | cons c rest ih =>
    intro d r h hd
    rw [List.cons_append, List.takeWhile_cons, h c (by simp)]
    simp [ih d r (fun e he => h e (by simp [he])) hd]

/-- `firstIdxOfChar` over an append skips a block not containing the
character. -/
theorem firstIdxOfChar_append {c : Char} :
    ∀ (t r : Str), c ∉ t →
      firstIdxOfChar (t ++ r) c = (firstIdxOfChar r c).map (· + t.length) := by
  intro t
  induction t with
  | nil =>
    intro r _
    simp only [List.nil_append, List.length_nil]
    cases firstIdxOfChar r c <;> simp
  | cons d rest ih =>
    intro r hmem
    rw [List.cons_append, firstIdxOfChar]
    have hd : ¬d = c := fun h => hmem (by simp [h])
    simp only [hd, if_false]
    rw [ih r (fun h => hmem (by simp [h]))]
    cases firstIdxOfChar r c <;> simp <;> omega

/-- Dropping an initial block plus `k` more elements. -/
theorem drop_append_plus {α : Type} :
    ∀ (l₁ l₂ : List α) (k : Nat), (l₁ ++ l₂).drop (l₁.length + k) = l₂.drop k := by
  intro l₁
  induction l₁ with
  | nil => intro l₂ k; simp
  | cons a rest ih =>
    intro l₂ k
    simp only [List.cons_append, List.length_cons]
    rw [show rest.length + 1 + k = (rest.length + k) + 1 by omega]
    simp only [List.drop_succ_cons]
    exact ih l₂ k

/-- Whether `findSubAux` finds an occurrence does not depend on the start
offset it counts from. -/
theorem findSubAux_isSome_shift (pat : Str) :
    ∀ (l : Str) (i j : Nat),
      (findSubAux pat l i).isSome = (findSubAux pat l j).isSome := by
  intro l
  induction l with
  | nil =>
    intro i j
    rw [findSubAux, findSubAux]
    split <;> simp
  | cons e es ihe =>
    intro i j
    rw [findSubAux, findSubAux]
    split
    · simp
    · exact ihe (i + 1) (j + 1)

/-- A single-character pattern is contained whenever the character occurs. -/
theorem containsSub_single_of_mem {c : Char} :
    ∀ {hay : Str}, c ∈ hay → containsSub hay [c] = true := by
  intro hay
  induction hay with
  | nil => intro h; cases h
  | cons d rest ih =>
    intro h
    unfold containsSub findSub
    rw [findSubAux]
    by_cases hd : [c].isPrefixOf (d :: rest)
    · simp [hd]
    · have hdc : ¬c = d := by
        intro hcd
        exact hd (by simp [List.isPrefixOf, hcd])
      have hcr : c ∈ rest := by
        rcases List.mem_cons.mp h with h' | h'
        · exact absurd h' hdc
        · exact h'
      rw [if_neg hd, findSubAux_isSome_shift [c] rest 1 0]
      exact ih hcr

/-- Stripping the parenthetical qualifier from a word of the shape
`token ++ " (" ++ qualifier ++ ")"` recovers the token. -/
theorem stripParenSuffix_token_qualifier (t q : Str)
    (ht : t ≠ []) (htws : ∀ c ∈ t, pyIsSpace c = false)
    (htp : ('(' : Char) ∉ t) (htc : (')' : Char) ∉ t)
    (hq : q ≠ []) (hqc : (')' : Char) ∉ q) :
    stripParenSuffix (t ++ ' ' :: '(' :: (q ++ [')'])) = t := by
  have hrev : (t ++ ' ' :: '(' :: (q ++ [')'])).reverse =
      ')' :: (q.reverse ++ '(' :: ' ' :: t.reverse) := by
    simp
  have hdrop : (t ++ ' ' :: '(' :: (q ++ [')'])).reverse.dropWhile pyIsSpace =
      ')' :: (q.reverse ++ '(' :: ' ' :: t.reverse) := by
    rw [hrev, List.dropWhile_cons]
    simp only [show pyIsSpace ')' = false from by decide]
    simp
  have hseg : (q.reverse ++ '(' :: ' ' :: t.reverse).takeWhile
      (fun c => c ≠ ')') = q.reverse ++ '(' :: ' ' :: t.reverse := by
    apply takeWhile_all_true
    intro c hc
    simp only [decide_eq_true_eq]
    rcases List.mem_append.mp hc with h' | h'
    · exact fun hcc => hqc (hcc ▸ List.mem_reverse.mp h')
    · rcases List.mem_cons.mp h' with h'' | h''
      · rw [h'']; decide
      · rcases List.mem_cons.mp h'' with h3 | h3
        · rw [h3]; decide
        · exact fun hcc => htc (hcc ▸ List.mem_reverse.mp h3)
  have hsegrev : (q.reverse ++ '(' :: ' ' :: t.reverse).reverse =
      t ++ ' ' :: '(' :: q := by
    simp
  have hidx : firstIdxOfChar (t ++ ' ' :: '(' :: q) '(' =
      some (1 + t.length) := by
    rw [firstIdxOfChar_append t (' ' :: '(' :: q) htp]
    rw [firstIdxOfChar]
    norm_num
    rw [firstIdxOfChar]
    simp [Nat.add_comm]
  unfold stripParenSuffix
  rw [hdrop]
  simp only [hseg, hsegrev, hidx]
  have hlen : (q.reverse ++ '(' :: ' ' :: t.reverse).length - 1 -
      (1 + t.length) = q.length := by
    simp only [List.length_append, List.length_reverse, List.length_cons]
    omega
  rw [hlen]
  have hq1 : 1 ≤ q.length := List.length_pos.mpr hq
  rw [if_pos hq1]
  have hdrop2 : (q.reverse ++ '(' :: ' ' :: t.reverse).drop (q.length + 1) =
      ' ' :: t.reverse := by
    have := drop_append_plus q.reverse ('(' :: ' ' :: t.reverse) 1
    simp only [List.length_reverse] at this
    rw [Nat.add_comm] at this ⊢
    rw [this]
    rfl
  rw [hdrop2, List.dropWhile_cons]
  simp only [show pyIsSpace ' ' = true from by decide, if_true]
  rw [dropWhile_all_false (fun c hc => htws c (List.mem_reverse.mp hc)),
    List.reverse_reverse]

/-- C2 (amended): for a candidate location word of the shape
`token + " (" + qualifier + ")"`, the blacklist veto is consistent across
the two scorers: a blacklisted token forces `validate == False` AND
`confidence == 0.0`.  (`validate == False` for other reasons does not bound
the confidence — see the counterexample.) -/
theorem blacklist_veto_forces_validate_false_and_zero
    (s : SearchOracle) (t q text : Str)
    (ht : t ≠ []) (htws : ∀ c ∈ t, pyIsSpace c = false)
    (htp : ('(' : Char) ∉ t) (htc : (')' : Char) ∉ t)
    (hq : q ≠ []) (hqc : (')' : Char) ∉ q)
    (hbl : is_blacklisted t = true) :
    validate_location_extraction s (t ++ ' ' :: '(' :: (q ++ [')'])) text =
        false ∧
      get_location_confidence s (t ++ ' ' :: '(' :: (q ++ [')'])) text =
        some 0 := by
  obtain ⟨c0, t', ht'⟩ : ∃ c0 t', t = c0 :: t' := by
    cases t with
    | nil => exact absurd rfl ht
    | cons a b => exact ⟨a, b, rfl⟩
  have hc0 : pyIsSpace c0 = false := htws c0 (by rw [ht']; simp)
  have hfront : (t ++ ' ' :: '(' :: (q ++ [')'])).dropWhile pyIsSpace =
      t ++ ' ' :: '(' :: (q ++ [')']) := by
    rw [ht', List.cons_append, List.dropWhile_cons, hc0]
    simp
  have hrev : (t ++ ' ' :: '(' :: (q ++ [')'])).reverse =
      ')' :: (q.reverse ++ '(' :: ' ' :: t.reverse) := by simp
  have hback : (t ++ ' ' :: '(' :: (q ++ [')'])).reverse.dropWhile pyIsSpace =
      (t ++ ' ' :: '(' :: (q ++ [')'])).reverse := by
    rw [hrev, List.dropWhile_cons]
    simp only [show pyIsSpace ')' = false from by decide]
    simp
  have hwordstrip : pyStrip (t ++ ' ' :: '(' :: (q ++ [')'])) =
      t ++ ' ' :: '(' :: (q ++ [')']) := by
    unfold pyStrip
    rw [hfront, hback, List.reverse_reverse]
  have hsps : stripParenSuffix (t ++ ' ' :: '(' :: (q ++ [')'])) = t :=
    stripParenSuffix_token_qualifier t q ht htws htp htc hq hqc
  constructor
  · simp only [validate_location_extraction]
    rw [hwordstrip, hsps, pyStrip_all_nonspace htws, hbl]
    simp
  · have hcw : confWordBase? (t ++ ' ' :: '(' :: (q ++ [')'])) = some t := by
      unfold confWordBase?
      have hsp : containsSub (t ++ ' ' :: '(' :: (q ++ [')'])) [' '] = true :=
        containsSub_single_of_mem (List.mem_append.mpr (Or.inr (by simp)))
      rw [hsp]
      simp only [if_true]
      have htkn : ((t ++ ' ' :: '(' :: (q ++ [')'])).dropWhile
          pyIsSpace).takeWhile (fun c => !pyIsSpace c) = t := by
        rw [hfront]
        exact takeWhile_append_stop t ' ' _
          (fun c hc => by rw [htws c hc]; rfl) (by decide)
      rw [htkn]
      simp [ht]
    unfold get_location_confidence
    rw [hcw]
    simp [hbl]

/-- C2 counterexample: a qualifier-bearing word that fails validation for
lack of a location-context indicator (its Latin qualifier does not count as
a Hebrew one) still scores confidence 1.0 — `validate() == False` does not
imply `confidence() == 0.0`. -/
theorem validate_false_confidence_one_counterexample :
    hasTrailingParenQualifier (pyStrip ("דמשק (Syria)".data)) = true ∧
      validate_location_extraction noMatchOracle ("דמשק (Syria)".data)
        ("דמשק".data) = false ∧
      get_location_confidence noMatchOracle ("דמשק (Syria)".data)
        ("דמשק".data) = some 1 := by
  refine ⟨by decide, by decide, ?_⟩
  rw [get_location_confidence_eq_chain noMatchOracle ("דמשק (Syria)".data)
    ("דמשק".data) ("דמשק".data) (by decide)]
  rw [show is_blacklisted ("דמשק".data) = false from by decide,
    show containsSub ("דמשק (Syria)".data) [' '] = true from by decide,
    show hasParenPair ("דמשק (Syria)".data) = true from by decide,
    show personNamePenaltyHit noMatchOracle ("דמשק".data) ("דמשק".data) =
      false from by decide,
    show is_in_date_context noMatchOracle ("דמשק".data)
      (pyFind ("דמשק".data) ("דמשק".data)) = false from by decide,
    show is_in_person_name_context noMatchOracle ("דמשק".data)
      (pyFind ("דמשק".data) ("דמשק".data)) = false from by decide,
    show has_location_context_indicator noMatchOracle ("דמשק".data)
      ("דמשק (Syria)".data) = false from by decide]
  norm_num [code_confidence_chain, pyMin, pyMax]

/-- Witness for the amended C2 theorem: the blacklisted month "אדר" with a
Hebrew qualifier is vetoed by both scorers. -/
theorem blacklist_veto_witness :
    is_blacklisted ("אדר".data) = true ∧
      validate_location_extraction noMatchOracle ("אדר (בבל)".data) [] =
        false ∧
      get_location_confidence noMatchOracle ("אדר (בבל)".data) [] =
        some 0 := by
  have hshape : ("אדר (בבל)".data) =
      ("אדר".data ++ ' ' :: '(' :: ("בבל".data ++ [')'])) := by decide
  have h := blacklist_veto_forces_validate_false_and_zero noMatchOracle
    ("אדר".data) ("בבל".data) [] (by decide) (by decide) (by decide)
    (by decide) (by decide) (by decide) (by decide)
  exact ⟨by decide, by rw [hshape]; exact h.1, by rw [hshape]; exact h.2⟩

end LocationValidator

namespace Models

/-- `entities.EntityType`. -/
inductive EntityType where
  | DATE
  | LOCATION
  | PERSON
  | WORK
  | ORGANIZATION
deriving DecidableEq, Repr

/-- The `.value` string of each `EntityType` member. -/
def EntityType.value : EntityType → Str
  | .DATE => "date".data
  | .LOCATION => "location".data
  | .PERSON => "person".data
  | .WORK => "work".data
  | .ORGANIZATION => "organization".data

/-- `entities.EventClass` (CIDOC-CRM event classes). -/
inductive EventClass where
  | E12_PRODUCTION
  | E10_TRANSFER_OF_CUSTODY
  | E8_ACQUISITION
  | E11_MODIFICATION
  | E67_BIRTH
  | E69_DEATH
  | E7_ACTIVITY
  | F32_ITEM_PRODUCTION
  | F28_EXPRESSION_CREATION
  | REFERENCE_EVENT
deriving DecidableEq, Repr

/-- The `.value` string of each `EventClass` member. -/
def EventClass.value : EventClass → Str
  | .E12_PRODUCTION => "E12_Production".data
  | .E10_TRANSFER_OF_CUSTODY => "E10_Transfer_of_Custody".data
  | .E8_ACQUISITION => "E8_Acquisition".data
  | .E11_MODIFICATION => "E11_Modification".data
  | .E67_BIRTH => "E67_Birth".data
  | .E69_DEATH => "E69_Death".data
  | .E7_ACTIVITY => "E7_Activity".data
  | .F32_ITEM_PRODUCTION => "F32_Item_Production_Event".data
  | .F28_EXPRESSION_CREATION => "F28_Expression_Creation".data
  | .REFERENCE_EVENT => "Reference_Event".data

/-- `EventClass(name)`: the enum member whose `.value` is `name`, when one
exists (`ValueError` otherwise). -/
def eventClassOfValue (name : Str) : Option EventClass :=
  [EventClass.E12_PRODUCTION, EventClass.E10_TRANSFER_OF_CUSTODY,
   EventClass.E8_ACQUISITION, EventClass.E11_MODIFICATION,
   EventClass.E67_BIRTH, EventClass.E69_DEATH, EventClass.E7_ACTIVITY,
   EventClass.F32_ITEM_PRODUCTION, EventClass.F28_EXPRESSION_CREATION,
   EventClass.REFERENCE_EVENT].find? (fun ec => ec.value = name)

/-- `entities.ExtractedEntity` (immutable; the constructor's validation of
`0 ≤ confidence ≤ 1` and non-empty value holds for every entity built in
this development). -/
structure ExtractedEntity where
  value : Str
  entity_type : EntityType
  confidence : ℚ := 1
  context : Str := []
  start_pos : Option Int := none
  end_pos : Option Int := none
  metadata : Option (List (Str × Str)) := none
deriving DecidableEq

/-- `entities.ClassifiedEntity`. -/
structure ClassifiedEntity where
  entity : ExtractedEntity
  label : Str
  ontology_mapping : List (Str × Option Str) := []
deriving DecidableEq

/-- `ClassifiedEntity.value`. -/
def ClassifiedEntity.value (c : ClassifiedEntity) : Str := c.entity.value

/-- `ClassifiedEntity.entity_type`. -/
def ClassifiedEntity.entity_type (c : ClassifiedEntity) : EntityType :=
  c.entity.entity_type

/-- `entities.Person`. -/
structure Person where
  name : Str
  patronymic : Option Str := none
  role : Option Str := none
  nli_uri : Option Str := none
  wikidata_uri : Option Str := none
deriving DecidableEq

/-- `entities.Place`. -/
structure Place where
  name : Str
  modern_name : Option Str := none
  nli_uri : Option Str := none
  geonames_uri : Option Str := none
  coordinates : Option (ℚ × ℚ) := none
deriving DecidableEq

/-- `entities.Event`. -/
structure Event where
  event_type : Str
  event_class : EventClass
  manuscript_id : Str
  date : Option Str := none
  place : Option Place := none
  actor : Option Person := none
  properties : List (Str × Option Str) := []
deriving DecidableEq

/-- `entities.ColophonInfo`. -/
structure ColophonInfo where
  text : Str
  has_completion_marker : Bool
  scribe_name : Option Str := none
  date_mentioned : Option Str := none
  place_mentioned : Option Str := none
deriving DecidableEq

/-- `entities.Work`. -/
structure Work where
  title : Str
  author : Option Person := none
  language : Str := "Hebrew".data
  subject : Option Str := none
deriving DecidableEq

/-- `entities.Expression`. -/
structure Expression where
  work : Work
  manuscript_id : Str
  language : Str := "Hebrew".data
deriving DecidableEq

/-- `entities.Manuscript` (aggregate root). -/
structure Manuscript where
  manuscript_id : Str
  notes_text : Str
  dates : List ExtractedEntity := []
  locations : List ExtractedEntity := []
  persons : List Person := []
  colophon : Option ColophonInfo := none
  work : Option Work := none
  expression : Option Expression := none
  events : List Event := []
  nli_uri : Option Str := none
  source_metadata : List (Str × Str) := []
deriving DecidableEq

end Models

namespace TextExtractors

open Models

/-- The calendar-month blacklist of `text_extractors` (distinct from the
validator's list: it adds "מרחשון" and has no "אדר א"/"אדר ב"). -/
def HEBREW_MONTHS : List Str :=
  ["תשרי".data, "חשון".data, "כסלו".data, "טבת".data, "שבט".data,
   "אדר".data, "ניסן".data, "אייר".data, "סיון".data, "תמוז".data,
   "אב".data, "אלול".data, "מרחשון".data]

/-- `RE_YEAR`: single four-digit year in the 1400–1999 window. -/
def RE_YEAR : Str :=
  "(?<!\\d)(?:שנת\\s+)?(1[4-9][0-9]{2})(?!\\d)".data

/-- `RE_CENTURY_DIGIT`. -/
def RE_CENTURY_DIGIT : Str :=
  "(?:ה?מאה\\s+ה?)(1[4-9]|20)(?!\\s*\\d)".data

/-- `RE_YEAR_RANGE` (an f-string splice of `RE_YEAR` around a separator). -/
def RE_YEAR_RANGE : Str :=
  RE_YEAR ++ "\\s*(?:-|–|—|/|\\\\)\\s*".data ++ RE_YEAR

/-- `DATE_REGEXES`: (family name, pattern source, `re.IGNORECASE`?). -/
def DATE_REGEXES : List (Str × Str × Bool) :=
  [("year_range".data, RE_YEAR_RANGE, true),
   ("gregorian_year".data, RE_YEAR, true),
   ("century_digit".data, RE_CENTURY_DIGIT, false)]

/-- The inner match loop of `extract_dates` for one pattern family:
dedup against `seen_values`, reject values shorter than 4 characters or
colliding with a month name, and build the immutable entity with
confidence 0.9 for the year-range family and 0.85 otherwise. -/
def datePass (text pname : Str) :
    List (Nat × Nat) → List Str → List ExtractedEntity × List Str
  | [], seen => ([], seen)
  | (a, b) :: ms, seen =>
    let value := pyStrip (pySlice text (a : Int) (b : Int))
    if value ∈ seen then
      datePass text pname ms seen
    else if value.length < 4 ∨ value ∈ HEBREW_MONTHS then
      datePass text pname ms seen
    else
      let entity : ExtractedEntity :=
        { value := value
          entity_type := EntityType.DATE
          confidence := if pname = "year_range".data then 9 / 10 else 17 / 20
          context := pySlice text (max 0 ((a : Int) - 20)) ((b : Int) + 20)
          start_pos := some (a : Int)
          end_pos := some (b : Int) }
      let r := datePass text pname ms (value :: seen)
      (entity :: r.1, r.2)

/-- The family loop of `extract_dates`, threading `seen_values`. -/
def extractDatesGo (s : SearchOracle) (text : Str) :
    List (Str × Str × Bool) → List Str → List ExtractedEntity
  | [], _ => []
  | (pname, pat, ci) :: rest, seen =>
    let r := datePass text pname (s.finditer ci pat text) seen
    r.1 ++ extractDatesGo s text rest r.2

/-- `extract_dates`. -/
def extract_dates (s : SearchOracle) (text : Str) : List ExtractedEntity :=
  if pyStrip text = [] then []
  else extractDatesGo s text DATE_REGEXES []

/-- Invariants of one pattern-family pass: emitted values are fresh and
pairwise distinct, pass the length/month filters, carry the family's fixed
confidence, and the updated `seen_values` is the old one plus the emitted
values. -/
theorem datePass_spec (text pname : Str) :
    ∀ (ms : List (Nat × Nat)) (seen : List Str),
      ((datePass text pname ms seen).1.map (·.value)).Nodup ∧
      (∀ e ∈ (datePass text pname ms seen).1,
        e.value ∉ seen ∧ 4 ≤ e.value.length ∧ e.value ∉ HEBREW_MONTHS ∧
        e.confidence =
          (if pname = "year_range".data then (9 : ℚ) / 10 else 17 / 20)) ∧
      (∀ v, v ∈ (datePass text pname ms seen).2 ↔
        (v ∈ seen ∨ v ∈ (datePass text pname ms seen).1.map (·.value))) := by
  intro ms
  induction ms with
  | nil =>
    intro seen
    refine ⟨by simp [datePass], by simp [datePass], ?_⟩
    intro v
    simp [datePass]
  | cons m ms ih =>
    intro seen
    obtain ⟨a, b⟩ := m
    by_cases h1 : pyStrip (pySlice text (a : Int) (b : Int)) ∈ seen
    · simp only [datePass]
      rw [if_pos h1]
      exact ih seen
    · by_cases h2 : (pyStrip (pySlice text (a : Int) (b : Int))).length < 4 ∨
          pyStrip (pySlice text (a : Int) (b : Int)) ∈ HEBREW_MONTHS
      · simp only [datePass]
        rw [if_neg h1, if_pos h2]
        exact ih seen
      · simp only [datePass]
        rw [if_neg h1, if_neg h2]
        push_neg at h2
        obtain ⟨ihn, ihe, ihs⟩ := ih
          (pyStrip (pySlice text (a : Int) (b : Int)) :: seen)
        have hval : pyStrip (pySlice text (a : Int) (b : Int)) ∉
            (datePass text pname ms
              (pyStrip (pySlice text (a : Int) (b : Int)) :: seen)).1.map
              (·.value) := by
          intro hmem
          rcases List.mem_map.mp hmem with ⟨e, he, hev⟩
          exact ((ihe e he).1) (hev ▸ List.mem_cons_self _ _)
        refine ⟨?_, ?_, ?_⟩
        · rw [List.map_cons]
          exact List.nodup_cons.mpr ⟨hval, ihn⟩
        · intro e he
          rcases List.mem_cons.mp he with rfl | he'
          · refine ⟨h1, ?_, h2.2, rfl⟩
            show 4 ≤ (pyStrip (pySlice text (a : Int) (b : Int))).length
            omega
          · obtain ⟨h', hrest⟩ := ihe e he'
            exact ⟨fun hs => h' (List.mem_cons_of_mem _ hs), hrest⟩
        · intro v
          rw [ihs v]
          simp only [List.map_cons, List.mem_cons]
          tauto

/-- Invariants of the family loop: values stay pairwise distinct across
families (the threaded `seen_values` makes later families skip earlier
values), and every emitted entity passes the filters. -/
theorem extractDatesGo_spec (s : SearchOracle) (text : Str) :
    ∀ (fams : List (Str × Str × Bool)) (seen : List Str),
      ((extractDatesGo s text fams seen).map (·.value)).Nodup ∧
      ∀ e ∈ extractDatesGo s text fams seen,
        e.value ∉ seen ∧ 4 ≤ e.value.length ∧ e.value ∉ HEBREW_MONTHS := by
  intro fams
  induction fams with
  | nil =>
    intro seen
    exact ⟨by simp [extractDatesGo], by simp [extractDatesGo]⟩
  | cons fam rest ih =>
    intro seen
    obtain ⟨pname, pat, ci⟩ := fam
    obtain ⟨pn, pe, ps⟩ := datePass_spec text pname (s.finditer ci pat text) seen
    obtain ⟨ihn, ihe⟩ := ih
      (datePass text pname (s.finditer ci pat text) seen).2
    constructor
    · simp only [extractDatesGo, List.map_append]
      refine List.Nodup.append pn ihn ?_
      intro v hv1 hv2
      rcases List.mem_map.mp hv2 with ⟨e, he, hev⟩
      have : e.value ∉ (datePass text pname (s.finditer ci pat text) seen).2 :=
        (ihe e he).1
      exact this (hev ▸ (ps v).mpr (Or.inr hv1))
    · intro e he
      rcases List.mem_append.mp (by simpa [extractDatesGo] using he) with
        h' | h'
      · obtain ⟨hs, hl, hm, _⟩ := pe e h'
        exact ⟨hs, hl, hm⟩
      · obtain ⟨hs, hl, hm⟩ := ihe e h'
        exact ⟨fun hv => hs ((ps e.value).mpr (Or.inl hv)), hl, hm⟩

/-- Text and oracle for the duplicate-year scenario: Python's
`re.finditer` on "1500 1500" finds no year range (a bare space is not a
range separator), the single-year pattern twice, and no century. -/
def sampleYearText : Str := "1500 1500".data

/-- The match spans of the three date regexes on `sampleYearText`. -/
def sampleYearOracle : SearchOracle :=
  ⟨fun _ _ _ => false,
   fun _ pat text =>
     if pat = RE_YEAR ∧ text = sampleYearText then [(0, 4), (5, 9)] else []⟩

/-- The single entity produced on `sampleYearText`. -/
def sampleYearEntity : Models.ExtractedEntity :=
  { value := "1500".data, entity_type := Models.EntityType.DATE,
    confidence := 17 / 20, context := "1500 1500".data,
    start_pos := some 0, end_pos := some 4, metadata := none }

/-- C9: `extract_dates` yields pairwise-distinct values; a text containing
the same four-digit year twice produces a single entity; every value has
length at least 4 and is not a Hebrew month name; and the confidence is
exactly 0.9 for the year-range family and 0.85 for the others. -/
theorem extract_dates_dedups_filters_and_scores :
    (∀ (s : SearchOracle) (text : Str),
      ((extract_dates s text).map (·.value)).Nodup ∧
      ∀ e ∈ extract_dates s text,
        4 ≤ e.value.length ∧ e.value ∉ HEBREW_MONTHS) ∧
    (∀ (text pname : Str) (ms : List (Nat × Nat)) (seen : List Str),
      ∀ e ∈ (datePass text pname ms seen).1,
        e.confidence =
          (if pname = "year_range".data then (9 : ℚ) / 10 else 17 / 20)) ∧
    extract_dates sampleYearOracle sampleYearText = [sampleYearEntity] := by
  refine ⟨?_, ?_, ?_⟩
  · intro s text
    rw [extract_dates]
    split_ifs
    · simp
    · obtain ⟨hn, he⟩ := extractDatesGo_spec s text DATE_REGEXES []
      exact ⟨hn, fun e hmem => ⟨(he e hmem).2.1, (he e hmem).2.2⟩⟩
  · intro text pname ms seen e he
    exact ((datePass_spec text pname ms seen).2.1 e he).2.2.2
  · rfl

/-- Witness for C9: the single entity of the duplicate-year scenario is in
the output, passes the filters, and carries the non-range confidence. -/
theorem extract_dates_witness :
    (4 ≤ sampleYearEntity.value.length ∧
      sampleYearEntity.value ∉ HEBREW_MONTHS) ∧
      sampleYearEntity.confidence =
        (if ("gregorian_year".data : Str) = "year_range".data then
          (9 : ℚ) / 10 else 17 / 20) := by
  have h := extract_dates_dedups_filters_and_scores
  have hmem : sampleYearEntity ∈
      extract_dates sampleYearOracle sampleYearText := by
    rw [h.2.2]
    exact List.mem_singleton.mpr rfl
  have hmem' : sampleYearEntity ∈
      (datePass sampleYearText ("gregorian_year".data) [(0, 4)] []).1 :=
    List.mem_singleton.mpr rfl
  exact ⟨(h.1 sampleYearOracle sampleYearText).2 _ hmem,
    h.2.1 sampleYearText ("gregorian_year".data) [(0, 4)] [] _ hmem'⟩

end TextExtractors

namespace GrokClassifier

open Models

/-- `DATE_LABELS` (a frozenset in the source; listed in literal order). -/
def DATE_LABELS : List Str :=
  ["work creation date".data, "work composition date".data,
   "intellectual creation date".data,
   "expression creation date".data, "text creation date".data,
   "version creation date".data,
   "manifestation creation date".data, "edition creation date".data,
   "manuscript production date".data, "copying date".data,
   "writing date".data, "scribal date".data,
   "publication date".data, "printing date".data, "print date".data,
   "press date".data,
   "binding date".data, "restoration date".data, "repair date".data,
   "modification date".data, "rebinding date".data,
   "illumination date".data, "decoration date".data,
   "transfer of custody date".data, "acquisition date".data,
   "purchase date".data, "sale date".data, "donation date".data,
   "bequest date".data, "gift date".data, "loan date".data,
   "auction date".data, "confiscation date".data,
   "cataloging date".data, "reference date".data, "citation date".data,
   "scholarly reference date".data, "catalog entry date".data,
   "digitization date".data, "imaging date".data,
   "photographing date".data, "microfilming date".data,
   "exhibition date".data, "display date".data,
   "birth date".data, "death date".data, "floruit date".data,
   "active date".data, "marriage date".data,
   "colophon date".data, "colophon completion date".data,
   "colophon inscription date".data,
   "annotation date".data, "inscription date".data,
   "marginal note date".data, "gloss date".data, "dedication date".data,
   "signature date".data,
   "reading date".data, "study date".data, "censorship date".data,
   "examination date".data]

/-- `LOCATION_LABELS`. -/
def LOCATION_LABELS : List Str :=
  ["production place".data, "written in".data, "copied in".data,
   "scribed in".data, "created in".data, "produced in".data,
   "published in".data, "printed in".data, "press location".data,
   "bound in".data, "restored in".data, "repaired in".data,
   "illuminated in".data, "decorated in".data,
   "moved to".data, "moved from".data, "transferred to".data,
   "transferred from".data, "brought from".data, "sent to".data,
   "dispatched to".data, "shipped from".data,
   "born in".data, "died in".data, "birth place".data,
   "death place".data,
   "lived in".data, "resided in".data, "dwelling in".data,
   "domiciled in".data,
   "worked in".data, "active in".data, "studied in".data,
   "taught in".data,
   "preserved in".data, "kept in".data, "stored in".data,
   "held in".data, "housed in".data, "located in".data,
   "owned in".data, "possession in".data,
   "repository".data, "library location".data, "archive location".data,
   "collection location".data,
   "mentioned place".data, "referenced place".data, "cited place".data,
   "place reference".data,
   "visited".data, "traveled to".data, "journeyed to".data,
   "passed through".data,
   "cataloged in".data, "documented in".data, "examined in".data,
   "photographed in".data, "digitized in".data,
   "exhibited in".data, "displayed in".data, "shown in".data]

/-- `PERSON_LABELS`. -/
def PERSON_LABELS : List Str :=
  ["scribe".data, "copyist".data, "illuminator".data,
   "author".data, "translator".data, "commentator".data,
   "owner".data, "previous owner".data, "donor".data,
   "purchaser".data, "seller".data,
   "cataloger".data, "censor".data,
   "patron".data, "dedicatee".data,
   "colophon scribe".data,
   "mentioned person".data]

/-- `get_labels_for_entity_type`. -/
def get_labels_for_entity_type : EntityType → List Str
  | EntityType.DATE => DATE_LABELS
  | EntityType.LOCATION => LOCATION_LABELS
  | EntityType.PERSON => PERSON_LABELS
  | _ => []

/-- `EVENT_TYPE_ONTOLOGY_MAPPING` (dict values that are `None` in the
source are `none`). -/
def EVENT_TYPE_ONTOLOGY_MAPPING : List (Str × List (Str × Option Str)) :=
  [("work creation date".data,
    [("event_class".data, some "F27_Work_Creation".data),
     ("property".data, some "R16_created".data),
     ("level".data, some "work".data)]),
   ("work composition date".data,
    [("event_class".data, some "F27_Work_Creation".data),
     ("property".data, some "R16_created".data),
     ("level".data, some "work".data)]),
   ("intellectual creation date".data,
    [("event_class".data, some "F27_Work_Creation".data),
     ("property".data, some "R16_created".data),
     ("level".data, some "work".data)]),
   ("expression creation date".data,
    [("event_class".data, some "F28_Expression_Creation".data),
     ("property".data, some "R17_created".data),
     ("level".data, some "expression".data)]),
   ("text creation date".data,
    [("event_class".data, some "F28_Expression_Creation".data),
     ("property".data, some "R17_created".data),
     ("level".data, some "expression".data)]),
   ("copying date".data,
    [("event_class".data, some "F28_Expression_Creation".data),
     ("property".data, some "R17_created".data),
     ("level".data, some "expression".data)]),
   ("manifestation creation date".data,
    [("event_class".data, some "F30_Manifestation_Creation".data),
     ("property".data, some "R24_created".data),
     ("level".data, some "manifestation".data)]),
   ("edition creation date".data,
    [("event_class".data, some "F30_Manifestation_Creation".data),
     ("property".data, some "R24_created".data),
     ("level".data, some "manifestation".data)]),
   ("manuscript production date".data,
    [("event_class".data, some "F32_Item_Production_Event".data),
     ("crm_class".data, some "E12_Production".data),
     ("property".data, some "R27_materialized".data),
     ("level".data, some "manifestation_singleton".data)]),
   ("writing date".data,
    [("event_class".data, some "E12_Production".data),
     ("property".data, some "P108_has_produced".data),
     ("level".data, some "manifestation_singleton".data)]),
   ("scribal date".data,
    [("event_class".data, some "E12_Production".data),
     ("property".data, some "P108_has_produced".data),
     ("level".data, some "manifestation_singleton".data)]),
   ("printing date".data,
    [("event_class".data, some "F30_Manifestation_Creation".data),
     ("property".data, some "R24_created".data),
     ("level".data, some "manifestation".data)]),
   ("publication date".data,
    [("event_class".data, some "F30_Manifestation_Creation".data),
     ("property".data, some "R24_created".data),
     ("level".data, some "manifestation".data)]),
   ("binding date".data,
    [("event_class".data, some "E11_Modification".data),
     ("property".data, some "P31_has_modified".data)]),
   ("restoration date".data,
    [("event_class".data, some "E11_Modification".data),
     ("property".data, some "P31_has_modified".data)]),
   ("illumination date".data,
    [("event_class".data, some "E11_Modification".data),
     ("property".data, some "P31_has_modified".data)]),
   ("transfer of custody date".data,
    [("event_class".data, some "E10_Transfer_of_Custody".data),
     ("property".data, some "P30_transferred_custody_of".data)]),
   ("donation date".data,
    [("event_class".data, some "E10_Transfer_of_Custody".data),
     ("property".data, some "P30_transferred_custody_of".data)]),
   ("gift date".data,
    [("event_class".data, some "E10_Transfer_of_Custody".data),
     ("property".data, some "P30_transferred_custody_of".data)]),
   ("acquisition date".data,
    [("event_class".data, some "E8_Acquisition".data),
     ("property".data, some "P24_transferred_title_of".data)]),
   ("purchase date".data,
    [("event_class".data, some "E8_Acquisition".data),
     ("property".data, some "P24_transferred_title_of".data)]),
   ("sale date".data,
    [("event_class".data, some "E8_Acquisition".data),
     ("property".data, some "P24_transferred_title_of".data)]),
   ("reference date".data,
    [("event_class".data, some "Reference_Event".data),
     ("property".data, some "P67_refers_to".data)]),
   ("cataloging date".data,
    [("event_class".data, some "Reference_Event".data),
     ("property".data, some "P67_refers_to".data)]),
   ("digitization date".data,
    [("event_class".data, some "E31_Document".data),
     ("property".data, some "P16_used_specific_object".data)]),
   ("birth date".data,
    [("event_class".data, some "E67_Birth".data),
     ("property".data, some "P98_brought_into_life".data)]),
   ("death date".data,
    [("event_class".data, some "E69_Death".data),
     ("property".data, some "P100_was_death_of".data)]),
   ("colophon date".data,
    [("event_class".data, some "Colophon".data),
     ("property".data, some "mentions_date".data)]),
   ("colophon completion date".data,
    [("event_class".data, some "Colophon".data),
     ("property".data, some "mentions_date".data)]),
   ("annotation date".data,
    [("event_class".data, some "E11_Modification".data),
     ("property".data, some "P31_has_modified".data)]),
   ("inscription date".data,
    [("event_class".data, some "E11_Modification".data),
     ("property".data, some "P31_has_modified".data)])]

/-- `LOCATION_RELATION_ONTOLOGY_MAPPING`. -/
def LOCATION_RELATION_ONTOLOGY_MAPPING :
    List (Str × List (Str × Option Str)) :=
  [("production place".data,
    [("event_class".data, some "E12_Production".data),
     ("property".data, some "P7_took_place_at".data)]),
   ("written in".data,
    [("event_class".data, some "E12_Production".data),
     ("property".data, some "P7_took_place_at".data)]),
   ("copied in".data,
    [("event_class".data, some "E12_Production".data),
     ("property".data, some "P7_took_place_at".data)]),
   ("published in".data,
    [("event_class".data, some "F30_Manifestation_Creation".data),
     ("property".data, some "P7_took_place_at".data)]),
   ("printed in".data,
    [("event_class".data, some "F30_Manifestation_Creation".data),
     ("property".data, some "P7_took_place_at".data)]),
   ("born in".data,
    [("event_class".data, some "E67_Birth".data),
     ("property".data, some "P7_took_place_at".data)]),
   ("died in".data,
    [("event_class".data, some "E69_Death".data),
     ("property".data, some "P7_took_place_at".data)]),
   ("resided in".data,
    [("property".data, some "P74_has_current_or_former_residence".data)]),
   ("lived in".data,
    [("property".data, some "P74_has_current_or_former_residence".data)]),
   ("moved to".data,
    [("event_class".data, some "E9_Move".data),
     ("property".data, some "P26_moved_to".data)]),
   ("moved from".data,
    [("event_class".data, some "E9_Move".data),
     ("property".data, some "P27_moved_from".data)]),
   ("sent to".data,
    [("event_class".data, some "E10_Transfer_of_Custody".data),
     ("property".data, some "P26_moved_to".data)]),
   ("mentioned place".data,
    [("property".data, some "mentions_place".data)]),
   ("preserved in".data,
    [("property".data, some "P55_has_current_location".data)])]

/-- `PERSON_ROLE_ONTOLOGY_MAPPING`. -/
def PERSON_ROLE_ONTOLOGY_MAPPING :
    List (Str × List (Str × Option Str)) :=
  [("scribe".data,
    [("property".data, some "has_scribe".data),
     ("event_role".data, some "P14_carried_out_by".data),
     ("event_class".data, some "E12_Production".data)]),
   ("copyist".data,
    [("property".data, some "has_scribe".data),
     ("event_role".data, some "P14_carried_out_by".data),
     ("event_class".data, some "F28_Expression_Creation".data)]),
   ("illuminator".data,
    [("property".data, some "has_illuminator".data),
     ("event_role".data, some "P14_carried_out_by".data),
     ("event_class".data, some "E11_Modification".data)]),
   ("author".data,
    [("property".data, some "has_author".data),
     ("event_role".data, some "P14_carried_out_by".data),
     ("event_class".data, some "F27_Work_Creation".data)]),
   ("translator".data,
    [("property".data, some "has_translator".data),
     ("event_role".data, some "P14_carried_out_by".data),
     ("event_class".data, some "F28_Expression_Creation".data)]),
   ("commentator".data,
    [("property".data, some "has_commentator".data),
     ("event_role".data, some "P14_carried_out_by".data),
     ("event_class".data, some "F28_Expression_Creation".data)]),
   ("owner".data,
    [("property".data, some "has_owner".data),
     ("event_role".data, some "P29_custody_received_by".data),
     ("event_class".data, some "E10_Transfer_of_Custody".data)]),
   ("previous owner".data,
    [("property".data, some "has_previous_owner".data),
     ("event_role".data, some "P28_custody_surrendered_by".data),
     ("event_class".data, some "E10_Transfer_of_Custody".data)]),
   ("donor".data,
    [("property".data, some "has_donor".data),
     ("event_role".data, some "P28_custody_surrendered_by".data),
     ("event_class".data, some "E10_Transfer_of_Custody".data)]),
   ("purchaser".data,
    [("property".data, some "has_purchaser".data),
     ("event_role".data, some "P22_acquired_title_to".data),
     ("event_class".data, some "E8_Acquisition".data)]),
   ("seller".data,
    [("property".data, some "has_seller".data),
     ("event_role".data, some "P23_transferred_title_from".data),
     ("event_class".data, some "E8_Acquisition".data)]),
   ("cataloger".data,
    [("property".data, some "has_cataloger".data),
     ("event_role".data, some "P14_carried_out_by".data),
     ("event_class".data, some "Reference_Event".data)]),
   ("censor".data,
    [("property".data, some "has_censor".data),
     ("event_role".data, some "P14_carried_out_by".data),
     ("event_class".data, some "E7_Activity".data)]),
   ("patron".data,
    [("property".data, some "has_patron".data),
     ("event_role".data, some "P14_carried_out_by".data),
     ("event_class".data, some "E7_Activity".data)]),
   ("dedicatee".data,
    [("property".data, some "has_dedicatee".data),
     ("event_role".data, none),
     ("event_class".data, none)]),
   ("colophon scribe".data,
    [("property".data, some "mentions_scribe".data),
     ("context".data, some "Colophon".data),
     ("event_role".data, some "P14_carried_out_by".data),
     ("event_class".data, some "E12_Production".data)]),
   ("mentioned person".data,
    [("property".data, some "mentions_person".data),
     ("event_role".data, none),
     ("event_class".data, none)])]

/-- `get_ontology_mapping`: first hit among the three tables, with the
generic activity mapping as default (Python's `or`-chain over `dict.get`;
every stored mapping is a non-empty dict, hence truthy). -/
def get_ontology_mapping (label : Str) : List (Str × Option Str) :=
  match KimaLoader.dictGet? EVENT_TYPE_ONTOLOGY_MAPPING label with
  | some m => m
  | none =>
    match KimaLoader.dictGet? LOCATION_RELATION_ONTOLOGY_MAPPING label with
    | some m => m
    | none =>
      match KimaLoader.dictGet? PERSON_ROLE_ONTOLOGY_MAPPING label with
      | some m => m
      | none => [("event_class".data, some "E7_Activity".data)]

/-- Python `dict` assignment `d[k] = v` on an association-list model:
replace in place when the key exists, append otherwise. -/
def dictInsert {α β : Type} [DecidableEq α]
    (d : List (α × β)) (k : α) (v : β) : List (α × β) :=
  if k ∈ d.map Prod.fst then
    d.map (fun p => if p.1 = k then (k, v) else p)
  else d ++ [(k, v)]

/-- Python `d.update(u)`: assignments in iteration order. -/
def dictUpdate {α β : Type} [DecidableEq α]
    (d upd : List (α × β)) : List (α × β) :=
  upd.foldl (fun acc kv => dictInsert acc kv.1 kv.2) d

/-- `list({e.value for e in entities})`: the set of entity values, modelled
as first-occurrence deduplication. -/
def dedupFirst (l : List Str) : List Str :=
  l.foldl (fun acc v => if v ∈ acc then acc else acc ++ [v]) []

/-- `{e.value: e for e in entities}`: last assignment wins. -/
def entityMapLastWins (entities : List ExtractedEntity) :
    List (Str × ExtractedEntity) :=
  entities.foldl (fun acc e => dictInsert acc e.value e) []

/-- `_create_chunks`: `[items[i:i+n] for i in range(0, len(items), n)]`,
written with a structural fuel (the list length bounds the chunk count). -/
def chunkListGo (n : Nat) : Nat → List Str → List (List Str)
  | 0, _ => []
  | _ + 1, [] => []
  | fuel + 1, x :: xs => (x :: xs).take n :: chunkListGo n fuel ((x :: xs).drop n)

/-- `_create_chunks` (the configured chunk size is positive). -/
def chunkList (items : List Str) (n : Nat) : List (List Str) :=
  if n = 0 then [] else chunkListGo n items.length items

/-- The reply filter of `_classify_chunk`:
`{k: v for k, v in mapping.items() if v in labels}` — AI answers outside
the allowed label vocabulary are discarded, but the KEYS are not checked
against the submitted items. -/
def classifyChunkFilter (labels : List Str) (reply : List (Str × Str)) :
    List (Str × Str) :=
  reply.filter (fun kv => kv.2 ∈ labels)

/-- STEP 2 of `_classify_batch`: merge the filtered AI replies of each
chunk over the pattern results. -/
def mergeAIResults (labels : List Str)
    (aiReply : List Str → List (Str × Str)) (chunks : List (List Str))
    (pattern_results : List (Str × Option Str)) : List (Str × Option Str) :=
  chunks.foldl
    (fun acc c =>
      dictUpdate acc
        ((classifyChunkFilter labels (aiReply c)).map
          (fun kv => (kv.1, some kv.2))))
    pattern_results

/-- STEP 3 of `_classify_batch`: `if label and value in entity_map`. -/
def buildClassified (entity_map : List (Str × ExtractedEntity))
    (p : Str × Option Str) : Option ClassifiedEntity :=
  match p.2 with
  | some lbl =>
    if lbl ≠ [] then
      match KimaLoader.dictGet? entity_map p.1 with
      | some ent => some ⟨ent, lbl, get_ontology_mapping lbl⟩
      | none => none
    else none
  | none => none

/-- `GrokClassifier._classify_batch`, with the external AI call abstracted
as `aiReply : submitted chunk ↦ parsed JSON mapping` and the thread pool's
`as_completed` merge ordered by chunk (the merge below is order-insensitive
for the properties proved here).  `HEBREW_PATTERNS_AVAILABLE` is `True` in
the repository. -/
def classify_batch (s : SearchOracle)
    (aiReply : List Str → List (Str × Str)) (chunk_size : Nat)
    (text : Str) (entities : List ExtractedEntity)
    (entity_type : EntityType) : List ClassifiedEntity :=
  let labels := get_labels_for_entity_type entity_type
  let unique_values := dedupFirst (entities.map (·.value))
  let entity_map := entityMapLastWins entities
  -- STEP 1: Hebrew patterns (for PERSONS only)
  let pattern_results : List (Str × Option Str) :=
    if entity_type = EntityType.PERSON then
      HebrewPatterns.classify_persons_batch s text unique_values
    else []
  let unclassified_values : List Str :=
    if entity_type = EntityType.PERSON then
      pattern_results.filterMap
        (fun p : Str × Option Str => if p.2 = none then some p.1 else none)
    else unique_values
  let chunks := chunkList unclassified_values chunk_size
  let all_results := mergeAIResults labels aiReply chunks pattern_results
  all_results.filterMap (buildClassified entity_map)

/-- Text for the C3 counterexample: a scribe marker next to משה, and a
second person דוד far enough away that its ±100-character context window
holds no marker. -/
def c3text : Str :=
  "סופר משה".data ++ List.replicate 100 'ט' ++ "דוד".data

/-- Oracle consistent with Python `re` on the contexts of `c3text`: only
the literal pattern "סופר" matches, by substring containment. -/
def scribeTextOracle : SearchOracle :=
  ⟨fun _ p ctx => decide (p = "סופר".data) && containsSub ctx ("סופר".data),
   fun _ _ _ => []⟩

/-- The person entity for משה. -/
def mosheEntity : ExtractedEntity :=
  { value := "משה".data, entity_type := EntityType.PERSON }

/-- The person entity for דוד. -/
def davidEntity : ExtractedEntity :=
  { value := "דוד".data, entity_type := EntityType.PERSON }

/-- An AI reply whose mapping names a value that was NOT among the
submitted chunk items — `_classify_chunk` filters labels but not keys. -/
def overwritingReply : List Str → List (Str × Str) :=
  fun _ => [("משה".data, "owner".data)]

set_option maxRecDepth 100000 in
/-- C3 counterexample: the pattern layer classifies משה as "scribe", yet
after merging an AI reply that (spuriously) names משה with the allowed
label "owner", the final output for משה carries "owner" — the merge DOES
overwrite a pattern-confirmed label when the reply's keys stray outside
the submitted items. -/
theorem ai_merge_overwrite_counterexample :
    HebrewPatterns.classify_person_by_patterns scribeTextOracle c3text
        ("משה".data) = some ("scribe".data) ∧
      (classify_batch scribeTextOracle overwritingReply 8 c3text
          [mosheEntity, davidEntity] EntityType.PERSON).map
        (fun ce => (ce.entity.value, ce.label)) =
        [("משה".data, "owner".data)] :=
  ⟨by decide, by decide⟩

/-- Membership in the first-occurrence deduplication. -/
theorem dedupFirst_go_mem :
    ∀ (l acc : List Str) (v : Str),
      (v ∈ l.foldl (fun acc v => if v ∈ acc then acc else acc ++ [v]) acc) ↔
        (v ∈ acc ∨ v ∈ l) := by
  intro l
  induction l with
  | nil => intro acc v; simp
  | cons x xs ih =>
    intro acc v
    rw [List.foldl_cons, ih]
    by_cases hx : x ∈ acc
    · rw [if_pos hx]
      constructor
      · rintro (h | h)
        · exact Or.inl h
        · exact Or.inr (List.mem_cons_of_mem _ h)
      · rintro (h | h)
        · exact Or.inl h
        · rcases List.mem_cons.mp h with rfl | h'
          · exact Or.inl hx
          · exact Or.inr h'
    · rw [if_neg hx]
      simp only [List.mem_append, List.mem_singleton, List.mem_cons]
      tauto

/-- The first-occurrence deduplication has pairwise-distinct entries. -/
theorem dedupFirst_go_nodup :
    ∀ (l acc : List Str), acc.Nodup →
      (l.foldl (fun acc v => if v ∈ acc then acc else acc ++ [v])
        acc).Nodup := by
  intro l
  induction l with
  | nil => intro acc h; simpa
  | cons x xs ih =>
    intro acc h
    rw [List.foldl_cons]
    by_cases hx : x ∈ acc
    · rw [if_pos hx]; exact ih acc h
    · rw [if_neg hx]
      refine ih _ ?_
      rw [List.nodup_append]
      exact ⟨h, List.nodup_singleton x, by simpa using hx⟩

/-- `dedupFirst` membership. -/
theorem dedupFirst_mem (l : List Str) (v : Str) :
    v ∈ dedupFirst l ↔ v ∈ l := by
  rw [dedupFirst, dedupFirst_go_mem]
  simp

/-- `dedupFirst` yields pairwise-distinct values. -/
theorem dedupFirst_nodup (l : List Str) : (dedupFirst l).Nodup :=
  dedupFirst_go_nodup l [] List.nodup_nil

/-- Lookup in an association list built by mapping a function over keys. -/
theorem dictGet?_map_pair (g : Str → Option Str) :
    ∀ (names : List Str) (v : Str),
      KimaLoader.dictGet? (names.map (fun n => (n, g n))) v =
        if v ∈ names then some (g v) else none := by
  intro names
  induction names with
  | nil => intro v; simp [KimaLoader.dictGet?]
  | cons n ns ih =>
    intro v
    by_cases hn : n = v
    · subst hn
      simp [KimaLoader.dictGet?, List.find?_cons]
    · have hfind : KimaLoader.dictGet?
          ((n, g n) :: ns.map (fun n => (n, g n))) v =
          KimaLoader.dictGet? (ns.map (fun n => (n, g n))) v := by
        simp [KimaLoader.dictGet?, List.find?_cons, hn]
      rw [List.map_cons, hfind, ih v]
      by_cases hv : v ∈ ns
      · rw [if_pos hv, if_pos (List.mem_cons_of_mem _ hv)]
      · rw [if_neg hv, if_neg (fun hmem => by
          rcases List.mem_cons.mp hmem with h' | h'
          exacts [hn h'.symm, hv h'])]

/-- A value the pattern layer classified is not among the unclassified. -/
theorem not_mem_unclassified (g : Str → Option Str) (names : List Str)
    (v r : Str) (hg : g v = some r) :
    v ∉ (names.map (fun n => (n, g n))).filterMap
      (fun p : Str × Option Str => if p.2 = none then some p.1 else none) := by
  intro hmem
  rcases List.mem_filterMap.mp hmem with ⟨p, hp, hpf⟩
  rcases List.mem_map.mp hp with ⟨n, _, rfl⟩
  by_cases hn : g n = none
  · rw [if_pos hn] at hpf
    have : n = v := by simpa using hpf
    rw [this, hg] at hn
    cases hn
  · rw [if_neg hn] at hpf
    cases hpf

/-- Every element of a chunk comes from the chunked list. -/
theorem chunkListGo_sublist (n : Nat) :
    ∀ (fuel : Nat) (items c : List Str), c ∈ chunkListGo n fuel items →
      ∀ x ∈ c, x ∈ items := by
  intro fuel
  induction fuel with
  | zero => intro items c hc; cases hc
  | succ fuel ih =>
    intro items c hc x hx
    cases items with
    | nil => cases hc
    | cons y ys =>
      rw [chunkListGo] at hc
      rcases List.mem_cons.mp hc with rfl | hc'
      · exact List.take_subset n _ hx
      · exact List.drop_subset n _ (ih _ c hc' x hx)

/-- Every element of a chunk comes from the chunked list. -/
theorem chunkList_sublist (items : List Str) (n : Nat) (c : List Str)
    (hc : c ∈ chunkList items n) : ∀ x ∈ c, x ∈ items := by
  rw [chunkList] at hc
  split_ifs at hc with h
  · cases hc
  · exact chunkListGo_sublist n items.length items c hc

/-- Lookup misses on a key absent from the association list. -/
theorem dictGet?_not_mem {β : Type} :
    ∀ (d : List (Str × β)) (k : Str), k ∉ d.map Prod.fst →
      KimaLoader.dictGet? d k = none := by
  intro d
  induction d with
  | nil => intro k _; rfl
  | cons p ps ih =>
    intro k hk
    have h1 : ¬p.1 = k := fun h =>
      hk (by rw [List.map_cons]; exact h ▸ List.mem_cons_self _ _)
    simp only [KimaLoader.dictGet?, List.find?_cons, h1, decide_False]
    exact ih k (fun h => hk (by rw [List.map_cons]; exact List.mem_cons_of_mem _ h))

/-- `d[k'] = v` leaves lookups at other keys unchanged. -/
theorem dictGet?_dictInsert_ne {β : Type}
    (d : List (Str × β)) (k k' : Str) (v : β) (h : k ≠ k') :
    KimaLoader.dictGet? (dictInsert d k' v) k = KimaLoader.dictGet? d k := by
  rw [dictInsert]
  split_ifs with hmem
  · induction d with
    | nil => rfl
    | cons p ps ih =>
      by_cases hp : p.1 = k'
      · simp only [List.map_cons, if_pos hp, KimaLoader.dictGet?,
          List.find?_cons]
        have hne : ¬(k' = k) := fun hh => h hh.symm
        have hne2 : ¬(p.1 = k) := by rw [hp]; exact hne
        simp only [hne, hne2, decide_False]
        by_cases hm : k' ∈ ps.map Prod.fst
        · exact ih hm
        · rw [show (ps.map fun p => if p.1 = k' then (k', v) else p) =
              ps.map id from ?_, List.map_id]
          apply List.map_congr_left
          intro q hq
          rw [if_neg (fun hqk => hm (by
            rw [← hqk]
            exact List.mem_map_of_mem Prod.fst hq))]
          rfl
      · simp only [List.map_cons, if_neg hp, KimaLoader.dictGet?,
          List.find?_cons]
        by_cases hpk : p.1 = k
        · simp [hpk]
        · simp only [hpk, decide_False]
          by_cases hm : k' ∈ ps.map Prod.fst
          · exact ih hm
          · rw [show (ps.map fun p => if p.1 = k' then (k', v) else p) =
                ps.map id from ?_, List.map_id]
            apply List.map_congr_left
            intro q hq
            rw [if_neg (fun hqk => hm (by
              rw [← hqk]; exact List.mem_map_of_mem Prod.fst hq))]
            rfl
  · induction d with
    | nil =>
      simp only [List.nil_append, KimaLoader.dictGet?, List.find?_cons]
      have : ¬((k', v).1 = k) := fun hh => h hh.symm
      simp [this]
    | cons p ps ih =>
      simp only [List.cons_append, KimaLoader.dictGet?, List.find?_cons]
      by_cases hpk : p.1 = k
      · simp [hpk]
      · simp only [hpk, decide_False]
        exact ih (fun hm => hmem (by
          rw [List.map_cons]
          exact List.mem_cons_of_mem _ hm))

/-- `d[k] = v` makes the lookup at `k` return `v`. -/
theorem dictGet?_dictInsert_self {β : Type}
    (d : List (Str × β)) (k : Str) (v : β) :
    KimaLoader.dictGet? (dictInsert d k v) k = some v := by
  rw [dictInsert]
  split_ifs with hmem
  · induction d with
    | nil => cases hmem
    | cons p ps ih =>
      by_cases hp : p.1 = k
      · simp [KimaLoader.dictGet?, List.find?_cons, hp]
      · rw [List.map_cons] at hmem ⊢
        rcases List.mem_cons.mp hmem with h' | h'
        · exact absurd h'.symm hp
        · simp only [if_neg hp, KimaLoader.dictGet?, List.find?_cons]
          simp only [hp, decide_False]
          exact ih h'
  · induction d with
    | nil => simp [KimaLoader.dictGet?, List.find?_cons]
    | cons p ps ih =>
      have hp : ¬p.1 = k := fun hh =>
        hmem (by rw [List.map_cons]; exact hh ▸ List.mem_cons_self _ _)
      simp only [List.cons_append, KimaLoader.dictGet?, List.find?_cons, hp,
        decide_False]
      exact ih (fun hm => hmem (by
        rw [List.map_cons]
        exact List.mem_cons_of_mem _ hm))

/-- `dict.update` leaves lookups at keys outside the update unchanged. -/
theorem dictGet?_dictUpdate_not_mem {β : Type} :
    ∀ (upd d : List (Str × β)) (k : Str), k ∉ upd.map Prod.fst →
      KimaLoader.dictGet? (dictUpdate d upd) k = KimaLoader.dictGet? d k := by
  intro upd
  induction upd with
  | nil => intro d k _; rfl
  | cons kv kvs ih =>
    intro d k hk
    rw [List.map_cons] at hk
    rw [dictUpdate, List.foldl_cons]
    have h1 : KimaLoader.dictGet? (dictInsert d kv.1 kv.2) k =
        KimaLoader.dictGet? d k :=
      dictGet?_dictInsert_ne d k kv.1 kv.2
        (fun hh => hk (hh ▸ List.mem_cons_self _ _))
    have h2 := ih (dictInsert d kv.1 kv.2) k
      (fun hm => hk (List.mem_cons_of_mem _ hm))
    rw [dictUpdate] at h2
    rw [h2, h1]

/-- `dictInsert` keeps the key list duplicate-free. -/
theorem dictInsert_keys_nodup {β : Type}
    (d : List (Str × β)) (k : Str) (v : β)
    (h : (d.map Prod.fst).Nodup) :
    ((dictInsert d k v).map Prod.fst).Nodup := by
  rw [dictInsert]
  split_ifs with hmem
  · have : (d.map fun p => if p.1 = k then (k, v) else p).map Prod.fst =
        d.map Prod.fst := by
      rw [List.map_map]
      apply List.map_congr_left
      intro p _
      by_cases hp : p.1 = k
      · simp [hp]
      · simp [hp]
    rw [this]
    exact h
  · rw [List.map_append]
    rw [List.nodup_append]
    refine ⟨h, List.nodup_singleton k, ?_⟩
    intro x hx1 hx2
    simp only [List.map_cons, List.map_nil, List.mem_singleton] at hx2
    exact hmem (hx2 ▸ hx1)

/-- `dict.update` keeps the key list duplicate-free. -/
theorem dictUpdate_keys_nodup {β : Type} :
    ∀ (upd d : List (Str × β)), (d.map Prod.fst).Nodup →
      ((dictUpdate d upd).map Prod.fst).Nodup := by
  intro upd
  induction upd with
  | nil => intro d h; exact h
  | cons kv kvs ih =>
    intro d h
    rw [dictUpdate, List.foldl_cons]
    have := ih (dictInsert d kv.1 kv.2) (dictInsert_keys_nodup d kv.1 kv.2 h)
    rw [dictUpdate] at this
    exact this

/-- With duplicate-free keys, lookup at a member pair's key returns its
value. -/
theorem dictGet?_of_mem_nodup {β : Type} :
    ∀ (d : List (Str × β)), (d.map Prod.fst).Nodup →
      ∀ p ∈ d, KimaLoader.dictGet? d p.1 = some p.2 := by
  intro d
  induction d with
  | nil => intro _ p hp; cases hp
  | cons q qs ih =>
    intro h p hp
    rw [List.map_cons, List.nodup_cons] at h
    rcases List.mem_cons.mp hp with rfl | hp'
    · rw [KimaLoader.dictGet?, List.find?_cons_of_pos _ (by simp)]
      rfl
    · have hqne : ¬q.1 = p.1 := fun hh =>
        h.1 (hh ▸ List.mem_map_of_mem Prod.fst hp')
      rw [KimaLoader.dictGet?, List.find?_cons_of_neg _ (by simpa using hqne)]
      exact ih h.2 p hp'

/-- Members found by lookup are members of the list. -/
theorem dictGet?_mem {β : Type} (d : List (Str × β)) (k : Str) (v : β)
    (h : KimaLoader.dictGet? d k = some v) : (k, v) ∈ d ∨ ∃ p ∈ d, p.1 = k ∧ p.2 = v := by
  rw [KimaLoader.dictGet?] at h
  rcases hf : d.find? (fun p => p.1 = k) with _ | p
  · rw [hf] at h; cases h
  · rw [hf] at h
    have hp := List.find?_some hf
    have hmem := List.mem_of_find?_eq_some hf
    refine Or.inr ⟨p, hmem, by simpa using hp, by simpa using h⟩

/-- Values found in the last-wins entity map carry their key as value. -/
theorem entityMap_fold_value :
    ∀ (entities : List ExtractedEntity)
      (acc : List (Str × ExtractedEntity)),
      (∀ k ent, KimaLoader.dictGet? acc k = some ent → ent.value = k) →
      ∀ k ent,
        KimaLoader.dictGet?
          (entities.foldl (fun acc e => dictInsert acc e.value e) acc) k =
          some ent →
        ent.value = k := by
  intro entities
  induction entities with
  | nil => intro acc hacc k ent h; exact hacc k ent h
  | cons e es ih =>
    intro acc hacc k ent h
    rw [List.foldl_cons] at h
    refine ih _ ?_ k ent h
    intro k' ent' h'
    by_cases hk : k' = e.value
    · subst hk
      rw [dictGet?_dictInsert_self] at h'
      cases h'
      rfl
    · rw [dictGet?_dictInsert_ne acc k' e.value e hk] at h'
      exact hacc k' ent' h'

/-- The last-wins entity map has an entry exactly for the entity values. -/
theorem entityMap_fold_isSome :
    ∀ (entities : List ExtractedEntity)
      (acc : List (Str × ExtractedEntity)) (k : Str),
      (KimaLoader.dictGet?
        (entities.foldl (fun acc e => dictInsert acc e.value e) acc)
        k).isSome ↔
      ((KimaLoader.dictGet? acc k).isSome ∨ k ∈ entities.map (·.value)) := by
  intro entities
  induction entities with
  | nil => intro acc k; simp
  | cons e es ih =>
    intro acc k
    rw [List.foldl_cons, ih]
    by_cases hk : k = e.value
    · subst hk
      rw [dictGet?_dictInsert_self]
      simp
    · rw [dictGet?_dictInsert_ne acc k e.value e hk]
      simp only [List.map_cons, List.mem_cons]
      constructor
      · rintro (h | h)
        · exact Or.inl h
        · exact Or.inr (Or.inr h)
      · rintro (h | h | h)
        · exact Or.inl h
        · exact absurd h.symm (fun hh => hk hh.symm)
        · exact Or.inr h

/-- Folding the per-chunk AI updates over the pattern results neither
touches the entry of a value outside every chunk nor breaks key
uniqueness. -/
theorem fold_chunks_preserve (labels : List Str)
    (aiReply : List Str → List (Str × Str)) (v : Str) :
    ∀ (chunks : List (List Str)) (acc : List (Str × Option Str)),
      (∀ c ∈ chunks, ∀ kv ∈ aiReply c, kv.1 ∈ c) →
      (∀ c ∈ chunks, v ∉ c) →
      KimaLoader.dictGet? (mergeAIResults labels aiReply chunks acc) v =
        KimaLoader.dictGet? acc v ∧
      ((acc.map Prod.fst).Nodup →
        ((mergeAIResults labels aiReply chunks acc).map Prod.fst).Nodup) := by
  intro chunks
  induction chunks with
  | nil => intro acc _ _; exact ⟨rfl, fun h => h⟩
  | cons c cs ih =>
    intro acc hkeys hv
    rw [mergeAIResults, List.foldl_cons]
    have hnotin : v ∉ ((classifyChunkFilter labels (aiReply c)).map
        (fun kv => (kv.1, some kv.2))).map Prod.fst := by
      intro hmem
      rw [List.map_map] at hmem
      rcases List.mem_map.mp hmem with ⟨kv, hkv, hkveq⟩
      have hkv' : kv ∈ aiReply c := List.mem_of_mem_filter hkv
      have : kv.1 ∈ c := hkeys c (List.mem_cons_self _ _) kv hkv'
      exact hv c (List.mem_cons_self _ _) (by
        have : (Prod.fst ∘ fun kv : Str × Str => (kv.1, some kv.2)) kv = v :=
          hkveq
        simp only [Function.comp] at this
        rw [← this]
        exact hkeys c (List.mem_cons_self _ _) kv hkv')
    obtain ⟨ih1, ih2⟩ := ih _
      (fun c' hc' => hkeys c' (List.mem_cons_of_mem _ hc'))
      (fun c' hc' => hv c' (List.mem_cons_of_mem _ hc'))
    rw [mergeAIResults] at ih1 ih2
    refine ⟨?_, ?_⟩
    · rw [ih1, dictGet?_dictUpdate_not_mem _ _ _ hnotin]
    · intro hacc
      exact ih2 (dictUpdate_keys_nodup _ _ hacc)

/-- A role assigned by the person-pattern classifier is never the empty
string. -/
theorem pattern_role_ne_nil (s : SearchOracle) (text v r : Str)
    (hrole : HebrewPatterns.classify_person_by_patterns s text v = some r) :
    r ≠ [] := by
  rcases HebrewPatterns.patternLoop_role_mem s HebrewPatterns.ALL_PERSON_PATTERNS
      (HebrewPatterns.extract_person_context text v) with h0 | ⟨pd, hm, heq⟩
  · exact absurd (h0 ▸ hrole : (none : Option Str) = some r)
      (by simp)
  · have hr : r = pd.role := by
      have : some r = some pd.role := hrole ▸ heq
      exact Option.some.inj this
    subst hr
    fin_cases hm <;> decide

/-- The output step of `_classify_batch`: with duplicate-free keys, the
entry for `v` (and only it) determines the classified output at `v`. -/
theorem buildClassified_output_spec
    (EM : List (Str × ExtractedEntity)) (AR : List (Str × Option Str))
    (v r : Str) (ent : ExtractedEntity)
    (hARv : KimaLoader.dictGet? AR v = some (some r))
    (hARnodup : (AR.map Prod.fst).Nodup)
    (hr_ne : r ≠ [])
    (hent : KimaLoader.dictGet? EM v = some ent)
    (hEMval : ∀ k e, KimaLoader.dictGet? EM k = some e → e.value = k) :
    (∀ ce ∈ AR.filterMap (buildClassified EM),
        ce.entity.value = v → ce.label = r) ∧
      (∃ ce ∈ AR.filterMap (buildClassified EM),
        ce.entity.value = v ∧ ce.label = r) := by
  have hentv : ent.value = v := hEMval v ent hent
  constructor
  · intro ce hce hval
    rcases List.mem_filterMap.mp hce with ⟨p, hpmem, hpf⟩
    obtain ⟨pk, pv⟩ := p
    cases pv with
    | none => exact Option.noConfusion hpf
    | some lbl =>
      simp only [buildClassified] at hpf
      by_cases hl : lbl = []
      · rw [if_neg (by simp [hl])] at hpf
        exact Option.noConfusion hpf
      · rw [if_pos hl] at hpf
        rcases hem : KimaLoader.dictGet? EM pk with _ | ent'
        · rw [hem] at hpf
          exact Option.noConfusion hpf
        · rw [hem] at hpf
          have hceq := Option.some.inj hpf
          have hlbl : ce.label = lbl := by rw [← hceq]
          have hentity : ce.entity = ent' := by rw [← hceq]
          have hpkv : pk = v := by
            have h1 : ent'.value = pk := hEMval pk ent' hem
            rw [← h1, ← hentity]
            exact hval
          have hlook := dictGet?_of_mem_nodup _ hARnodup (pk, some lbl) hpmem
          rw [hpkv] at hlook
          have h2 : lbl = r :=
            Option.some.inj (Option.some.inj (hlook.symm.trans hARv))
          rw [hlbl, h2]
  · refine ⟨⟨ent, r, get_ontology_mapping r⟩, ?_, hentv, rfl⟩
    rcases dictGet?_mem AR v (some r) hARv with hIn | ⟨p, hpmem, hp1, hp2⟩
    · refine List.mem_filterMap.mpr ⟨(v, some r), hIn, ?_⟩
      simp only [buildClassified]
      rw [if_pos hr_ne, hent]
    · have hpe : p = (v, some r) := by
        obtain ⟨pk, pv⟩ := p
        dsimp at hp1 hp2
        rw [hp1, hp2]
      rw [hpe] at hpmem
      refine List.mem_filterMap.mpr ⟨(v, some r), hpmem, ?_⟩
      simp only [buildClassified]
      rw [if_pos hr_ne, hent]

/-- C3 (amended): when every AI reply only maps values that were actually
submitted in its chunk, merging the AI results never overwrites a
pattern-confirmed label — the arbiter's final output for a
pattern-classified person value carries exactly the pattern's role. -/
theorem ai_merge_preserves_pattern_labels (s : SearchOracle)
    (aiReply : List Str → List (Str × Str)) (chunk_size : Nat)
    (text : Str) (entities : List ExtractedEntity) (v r : Str)
    (hkeys : ∀ (items : List Str), ∀ kv ∈ aiReply items, kv.1 ∈ items)
    (hrole : HebrewPatterns.classify_person_by_patterns s text v = some r)
    (hv : v ∈ entities.map (·.value)) :
    (∀ ce ∈ classify_batch s aiReply chunk_size text entities
        EntityType.PERSON, ce.entity.value = v → ce.label = r) ∧
      (∃ ce ∈ classify_batch s aiReply chunk_size text entities
        EntityType.PERSON, ce.entity.value = v ∧ ce.label = r) := by
  have hbatch : classify_batch s aiReply chunk_size text entities
      EntityType.PERSON =
      (mergeAIResults (get_labels_for_entity_type EntityType.PERSON) aiReply
        (chunkList
          ((HebrewPatterns.classify_persons_batch s text
              (dedupFirst (entities.map (·.value)))).filterMap
            (fun p : Str × Option Str => if p.2 = none then some p.1 else none))
          chunk_size)
        (HebrewPatterns.classify_persons_batch s text
          (dedupFirst (entities.map (·.value))))).filterMap
        (buildClassified (entityMapLastWins entities)) := rfl
  have hvU : v ∈ dedupFirst (entities.map (·.value)) :=
    (dedupFirst_mem _ v).mpr hv
  have hPv : KimaLoader.dictGet?
      (HebrewPatterns.classify_persons_batch s text
        (dedupFirst (entities.map (·.value)))) v = some (some r) := by
    show KimaLoader.dictGet?
      ((dedupFirst (entities.map (·.value))).map (fun n =>
        (n, HebrewPatterns.classify_person_by_patterns s text n))) v =
      some (some r)
    rw [dictGet?_map_pair, if_pos hvU, hrole]
  have hPnodup : ((HebrewPatterns.classify_persons_batch s text
      (dedupFirst (entities.map (·.value)))).map Prod.fst).Nodup := by
    show (((dedupFirst (entities.map (·.value))).map (fun n =>
      (n, HebrewPatterns.classify_person_by_patterns s text n))).map
      Prod.fst).Nodup
    rw [List.map_map]
    have hcomp : (Prod.fst ∘ fun n : Str =>
        (n, HebrewPatterns.classify_person_by_patterns s text n)) =
        fun n => n := by
      funext n
      rfl
    rw [hcomp]
    simpa using dedupFirst_nodup (entities.map (·.value))
  have hvunc : v ∉ (HebrewPatterns.classify_persons_batch s text
      (dedupFirst (entities.map (·.value)))).filterMap
      (fun p : Str × Option Str => if p.2 = none then some p.1 else none) :=
    not_mem_unclassified
      (fun n => HebrewPatterns.classify_person_by_patterns s text n)
      (dedupFirst (entities.map Models.ExtractedEntity.value)) v r hrole
  have hchk : ∀ c ∈ chunkList
      ((HebrewPatterns.classify_persons_batch s text
          (dedupFirst (entities.map (·.value)))).filterMap
        (fun p : Str × Option Str => if p.2 = none then some p.1 else none)) chunk_size,
      ∀ kv ∈ aiReply c, kv.1 ∈ c :=
    fun c _ kv hkv => hkeys c kv hkv
  have hchv : ∀ c ∈ chunkList
      ((HebrewPatterns.classify_persons_batch s text
          (dedupFirst (entities.map (·.value)))).filterMap
        (fun p : Str × Option Str => if p.2 = none then some p.1 else none)) chunk_size,
      v ∉ c :=
    fun c hc hvc => hvunc (chunkList_sublist _ chunk_size c hc v hvc)
  obtain ⟨hm1, hm2⟩ := fold_chunks_preserve
    (get_labels_for_entity_type EntityType.PERSON) aiReply v
    (chunkList
      ((HebrewPatterns.classify_persons_batch s text
          (dedupFirst (entities.map Models.ExtractedEntity.value))).filterMap
        (fun p : Str × Option Str => if p.2 = none then some p.1 else none)) chunk_size)
    (HebrewPatterns.classify_persons_batch s text
      (dedupFirst (entities.map Models.ExtractedEntity.value))) hchk hchv
  have hARv := hm1.trans hPv
  have hARnodup := hm2 hPnodup
  have hr_ne : r ≠ [] := pattern_role_ne_nil s text v r hrole
  have hEMsome : (KimaLoader.dictGet? (entityMapLastWins entities)
      v).isSome := by
    rw [show entityMapLastWins entities =
      entities.foldl (fun acc e => dictInsert acc e.value e) [] from rfl]
    rw [entityMap_fold_isSome]
    exact Or.inr hv
  obtain ⟨ent, hent⟩ := Option.isSome_iff_exists.mp hEMsome
  have hEMval : ∀ k e, KimaLoader.dictGet? (entityMapLastWins entities) k =
      some e → e.value = k :=
    fun k e h => entityMap_fold_value entities []
      (fun k' e' h' => by simp [KimaLoader.dictGet?] at h') k e h
  have hspec := buildClassified_output_spec (entityMapLastWins entities)
    (mergeAIResults (get_labels_for_entity_type EntityType.PERSON) aiReply
      (chunkList
        ((HebrewPatterns.classify_persons_batch s text
            (dedupFirst (entities.map Models.ExtractedEntity.value))).filterMap
          (fun p : Str × Option Str => if p.2 = none then some p.1 else none)) chunk_size)
      (HebrewPatterns.classify_persons_batch s text
        (dedupFirst (entities.map Models.ExtractedEntity.value))))
    v r ent hARv hARnodup hr_ne hent hEMval
  rw [hbatch]
  exact hspec

/-- An AI reply that is well-behaved: it only maps values actually
submitted in its chunk. -/
def goodReply : List Str → List (Str × Str) :=
  fun items => items.map (fun k => (k, "mentioned person".data))

set_option maxRecDepth 100000 in
/-- Witness for C3 (amended): with a well-behaved AI reply on the
concrete scribe text, the pattern-assigned role "scribe" for משה
survives the merge. -/
theorem ai_merge_preserves_pattern_labels_witness :
    (∀ ce ∈ classify_batch scribeTextOracle goodReply 8 c3text
        [mosheEntity, davidEntity] EntityType.PERSON,
      ce.entity.value = "משה".data → ce.label = "scribe".data) ∧
      (∃ ce ∈ classify_batch scribeTextOracle goodReply 8 c3text
        [mosheEntity, davidEntity] EntityType.PERSON,
        ce.entity.value = "משה".data ∧ ce.label = "scribe".data) :=
  ai_merge_preserves_pattern_labels scribeTextOracle goodReply 8 c3text
    [mosheEntity, davidEntity] ("משה".data) ("scribe".data)
    (fun items kv h => by
      rcases List.mem_map.mp h with ⟨k, hk, rfl⟩
      exact hk)
    (by decide) (by decide)

end GrokClassifier

namespace Pipeline

open Models

/-- `ontology_mapping.get("event_class", "E7_Activity")`: the stored value
for the key "event_class" (possibly Python `None`), or the default
"E7_Activity" when the key is absent. -/
def escName (c : ClassifiedEntity) : Option Str :=
  match KimaLoader.dictGet? c.ontology_mapping ("event_class".data) with
  | some v => v
  | none => some ("E7_Activity".data)

/-- The `try: EventClass(event_class_name) except ValueError:` block of
`create_events_from_classified`: an unrecognized name — and the
`TypeError`-free reading of a `None` name — falls back to
`EventClass.E7_ACTIVITY`. -/
def eventClassFor (c : ClassifiedEntity) : EventClass :=
  match escName c with
  | some n => (eventClassOfValue n).getD EventClass.E7_ACTIVITY
  | none => EventClass.E7_ACTIVITY

/-- `classified.label.replace(" date", "").replace(" in", "")`. -/
def eventTypeFor (c : ClassifiedEntity) : Str :=
  pyReplace (" in".data) [] (pyReplace (" date".data) [] c.label)

/-- The loop body of `create_events_from_classified`: the `if/elif` on
`classified.entity_type.value` appends one `Event` for a date, one for a
location, and nothing for any other entity type. -/
def eventFor (manuscript : Manuscript) (c : ClassifiedEntity) :
    Option Event :=
  if c.entity_type.value = "date".data then
    some { event_type := eventTypeFor c, event_class := eventClassFor c,
           manuscript_id := manuscript.manuscript_id, date := some c.value,
           properties := c.ontology_mapping }
  else if c.entity_type.value = "location".data then
    some { event_type := eventTypeFor c, event_class := eventClassFor c,
           manuscript_id := manuscript.manuscript_id,
           place := some { name := c.value },
           properties := c.ontology_mapping }
  else
    none

/-- `pipeline.create_events_from_classified`: fold the loop body over the
classified entities, appending each produced event. -/
def create_events_from_classified (manuscript : Manuscript)
    (classified_entities : List ClassifiedEntity) : List Event :=
  classified_entities.foldl (fun events c =>
    match eventFor manuscript c with
    | some event => events ++ [event]
    | none => events) []

/-- Folding the append-if-some loop body equals `filterMap`. -/
theorem foldl_append_eq_filterMap (manuscript : Manuscript) :
    ∀ (l : List ClassifiedEntity) (acc : List Event),
      l.foldl (fun events c =>
        match eventFor manuscript c with
        | some event => events ++ [event]
        | none => events) acc =
        acc ++ l.filterMap (eventFor manuscript) := by
  intro l
  induction l with
  | nil => intro acc; simp
  | cons x xs ih =>
    intro acc
    rw [List.foldl_cons, ih, List.filterMap_cons]
    cases hfx : eventFor manuscript x
    · simp
    · simp

/-- A `filterMap` keeps exactly the elements on which `f` is `some`. -/
theorem length_filterMap_isSome {α β : Type} (f : α → Option β) :
    ∀ l : List α, (l.filterMap f).length =
      (l.filter (fun c => (f c).isSome)).length := by
  intro l
  induction l with
  | nil => rfl
  | cons x xs ih =>
    rw [List.filterMap_cons, List.filter_cons]
    cases hfx : f x
    · simp [hfx, ih]
    · simp [hfx, ih]

/-- C4 (amended): `create_events_from_classified` is the `filterMap` of a
per-entity event builder, and that builder yields exactly one event for a
DATE or LOCATION classified entity and NO event for any other entity type
— in particular a classified PERSON produces no downstream record,
contradicting the claim as stated. Within the date/location branches the
fallback part of the claim is real: an unrecognized (or `None`)
`event_class` name in the ontology mapping yields `E7_Activity` rather
than dropping the event. -/
theorem create_events_only_dates_and_locations
    (manuscript : Manuscript) (ces : List ClassifiedEntity) :
    create_events_from_classified manuscript ces =
        ces.filterMap (eventFor manuscript) ∧
      (create_events_from_classified manuscript ces).length =
        (ces.filter (fun c => (eventFor manuscript c).isSome)).length ∧
      (∀ c : ClassifiedEntity, (eventFor manuscript c).isSome ↔
        (c.entity_type = EntityType.DATE ∨
          c.entity_type = EntityType.LOCATION)) ∧
      (∀ c : ClassifiedEntity, ∀ e : Event,
        eventFor manuscript c = some e →
          e.event_class = eventClassFor c) ∧
      (∀ c : ClassifiedEntity, ∀ n : Str, escName c = some n →
        eventClassOfValue n = none →
          eventClassFor c = EventClass.E7_ACTIVITY) := by
  have h1 : create_events_from_classified manuscript ces =
      ces.filterMap (eventFor manuscript) := by
    have h := foldl_append_eq_filterMap manuscript ces []
    rw [List.nil_append] at h
    unfold create_events_from_classified
    exact h
  refine ⟨h1, ?_, ?_, ?_, ?_⟩
  · rw [h1]
    exact length_filterMap_isSome _ ces
  · intro c
    obtain ⟨⟨val, et, conf, ctx, sp, ep, md⟩, label, om⟩ := c
    cases et <;>
      simp [eventFor, ClassifiedEntity.entity_type, EntityType.value]
  · intro c e he
    unfold eventFor at he
    split_ifs at he
    · cases he
      rfl
    · cases he
      rfl
  · intro c n hn hecv
    unfold eventClassFor
    rw [hn]
    show (eventClassOfValue n).getD EventClass.E7_ACTIVITY =
      EventClass.E7_ACTIVITY
    rw [hecv]
    rfl

/-- A concrete manuscript for the C4 instances. -/
def m0 : Manuscript := { manuscript_id := "MS1".data, notes_text := [] }

/-- A classified DATE entity whose ontology mapping names an event class
outside the `EventClass` enum. -/
def cBadDate : ClassifiedEntity :=
  { entity := { value := "1500".data, entity_type := EntityType.DATE },
    label := "production date".data,
    ontology_mapping := [("event_class".data, some ("E99_Nonsense".data))] }

/-- A classified PERSON entity. -/
def cPersonScribe : ClassifiedEntity :=
  { entity := { value := "משה".data, entity_type := EntityType.PERSON },
    label := "scribe".data }

/-- C4 counterexample: a classified PERSON entity produces NO event at
all — `create_events_from_classified` has branches only for the date and
location entity types, so persons (and works and organizations) are
silently dropped, contradicting "every classified entity (dates,
locations, and persons alike) produces an observable downstream
record". -/
theorem person_entity_produces_no_event :
    create_events_from_classified m0 [cPersonScribe] = [] := by decide

/-- Witness for C4 (amended): on a concrete manuscript, a DATE entity
whose ontology names the unrecognized event class "E99_Nonsense" yields
an event whose class falls back to E7_Activity, while the PERSON entity
yields none, and the output is the filterMap of the event builder. -/
theorem create_events_only_dates_and_locations_witness :
    (eventFor m0 cBadDate).isSome ∧
      eventClassFor cBadDate = Models.EventClass.E7_ACTIVITY ∧
      eventFor m0 cPersonScribe = none ∧
      create_events_from_classified m0 [cBadDate, cPersonScribe] =
        List.filterMap (eventFor m0) [cBadDate, cPersonScribe] := by
  have h := create_events_only_dates_and_locations m0
    [cBadDate, cPersonScribe]
  refine ⟨?_, ?_, ?_, h.1⟩
  · exact (h.2.2.1 cBadDate).mpr (Or.inl (by decide))
  · exact h.2.2.2.2 cBadDate ("E99_Nonsense".data) (by decide) (by decide)
  · cases hev : eventFor m0 cPersonScribe with
    | none => rfl
    | some e =>
      have hdl : cPersonScribe.entity_type = EntityType.DATE ∨
          cPersonScribe.entity_type = EntityType.LOCATION :=
        (h.2.2.1 cPersonScribe).mp (by rw [hev]; rfl)
      exact absurd hdl (by decide)

end Pipeline

end HebrewMS
